import Mathlib

/-!
# RIFT interpreter core: a shallow embedding

This file embeds the core of the RIFT tree-walking interpreter
(`src/interpreter.py`, `src/environment.py`, `src/errors.py`, `src/types.py`,
plus the range construction of `src/parser.py`) into Lean and proves
properties of the embedded evaluator.

Modelling conventions:
- Python machine state (the environment chain, the function/lambda/class/
  instance tables, the current-environment pointer) is threaded explicitly
  through a `State` record.
- Python exceptions are an explicit result type `Res`: RIFT errors and
  uncaught host (Python) exceptions are `Res.err`, the four control-flow
  signal classes (`BreakSignal`, `ContinueSignal`, `ReturnSignal`,
  `YieldSignal` of `src/errors.py`, which are `Exception` subclasses but not
  `RiftError` subclasses) are `Res.signal`.
- The evaluator is fuel-indexed (`run fuel st task`); every recursive call
  decreases the fuel, so the definition is structural and kernel-computable.
  `Res.timeout` is the fuel-exhaustion artifact and corresponds to no
  behaviour of the source (which simply recurses).
- Host floating point is idealised: finite doubles are exact rationals,
  kept as unnormalised `num/den` pairs with positive denominator (rounding
  of in-range finite results is not modelled; no proved statement depends
  on it), while overflow past the IEEE-754 binary64 range produces an
  infinity, and the special values `inf`, `-inf`, `nan` follow the IEEE
  comparison/arithmetic rules as CPython exposes them.
- Branches of the source that no proved statement exercises (e.g. most host
  string methods) are marked with `ErrKind.modelGap`; they are never
  reached in any theorem below.
-/

namespace RiftSpec

/-- An exact rational kept as an unnormalised fraction. Every producing
operation below keeps the denominator positive. -/
structure QV where
  num : ℤ
  den : ℤ
deriving DecidableEq

/-- Embed an integer. -/
def qOfInt (i : ℤ) : QV := ⟨i, 1⟩

/-- Fraction equality by cross multiplication (denominators positive). -/
def qEqB (a b : QV) : Bool := a.num * b.den = b.num * a.den

/-- Fraction strict order by cross multiplication (denominators positive). -/
def qLtB (a b : QV) : Bool := a.num * b.den < b.num * a.den

def qAdd (a b : QV) : QV := ⟨a.num * b.den + b.num * a.den, a.den * b.den⟩

def qSub (a b : QV) : QV := ⟨a.num * b.den - b.num * a.den, a.den * b.den⟩

def qMul (a b : QV) : QV := ⟨a.num * b.num, a.den * b.den⟩

/-- Fraction division (the divisor is non-zero on every reachable path);
the sign is moved into the numerator to keep the denominator positive. -/
def qDiv (a b : QV) : QV :=
  if b.num < 0 then ⟨-(a.num * b.den), a.den * -b.num⟩
  else ⟨a.num * b.den, a.den * b.num⟩

/-- Idealised IEEE-754 binary64 value as produced by the host:
a finite value (kept exact), the two infinities, or NaN. -/
inductive FloatV where
  | finite (q : QV)
  | inf
  | neginf
  | nan
deriving DecidableEq

/-- First magnitude strictly above every finite double: 2^1024, written as
an explicit numeral so that it evaluates inside the kernel. A finite
arithmetic result at or beyond this magnitude overflows to an infinity. -/
def floatLimit : QV :=
  ⟨179769313486231590772930519078902473361797697894230657273430081157732675805500963132708477322407536021120113879871393357658789768814416622492847430639474124377767893424865485276302219601246094119453082952085005768838150682342462881473913110540827237163350510684586298239947245938479716304835356329624224137216, 1⟩

def qNegLimit : QV :=
  ⟨-179769313486231590772930519078902473361797697894230657273430081157732675805500963132708477322407536021120113879871393357658789768814416622492847430639474124377767893424865485276302219601246094119453082952085005768838150682342462881473913110540827237163350510684586298239947245938479716304835356329624224137216, 1⟩

/-- Build a float from an exact rational result, overflowing to ±inf past
the IEEE-754 binary64 range (rounding of in-range values is not modelled). -/
def mkFloat (q : QV) : FloatV :=
  if qLtB q floatLimit = false then FloatV.inf
  else if qLtB qNegLimit q = false then FloatV.neginf
  else FloatV.finite q

/-- IEEE addition on the special-value model. -/
def fAdd : FloatV → FloatV → FloatV
  | FloatV.nan, _ => FloatV.nan
  | _, FloatV.nan => FloatV.nan
  | FloatV.inf, FloatV.neginf => FloatV.nan
  | FloatV.neginf, FloatV.inf => FloatV.nan
  | FloatV.inf, _ => FloatV.inf
  | _, FloatV.inf => FloatV.inf
  | FloatV.neginf, _ => FloatV.neginf
  | _, FloatV.neginf => FloatV.neginf
  | FloatV.finite a, FloatV.finite b => mkFloat (qAdd a b)

/-- IEEE subtraction on the special-value model; `inf - inf` is NaN. -/
def fSub : FloatV → FloatV → FloatV
  | FloatV.nan, _ => FloatV.nan
  | _, FloatV.nan => FloatV.nan
  | FloatV.inf, FloatV.inf => FloatV.nan
  | FloatV.neginf, FloatV.neginf => FloatV.nan
  | FloatV.inf, _ => FloatV.inf
  | FloatV.neginf, _ => FloatV.neginf
  | FloatV.finite _, FloatV.inf => FloatV.neginf
  | FloatV.finite _, FloatV.neginf => FloatV.inf
  | FloatV.finite a, FloatV.finite b => mkFloat (qSub a b)

/-- IEEE multiplication on the special-value model; `inf * 0` is NaN. -/
def fMul : FloatV → FloatV → FloatV
  | FloatV.nan, _ => FloatV.nan
  | _, FloatV.nan => FloatV.nan
  | FloatV.inf, FloatV.inf => FloatV.inf
  | FloatV.inf, FloatV.neginf => FloatV.neginf
  | FloatV.neginf, FloatV.inf => FloatV.neginf
  | FloatV.neginf, FloatV.neginf => FloatV.inf
  | FloatV.inf, FloatV.finite b =>
      if b.num = 0 then FloatV.nan
      else if 0 < b.num then FloatV.inf else FloatV.neginf
  | FloatV.finite a, FloatV.inf =>
      if a.num = 0 then FloatV.nan
      else if 0 < a.num then FloatV.inf else FloatV.neginf
  | FloatV.neginf, FloatV.finite b =>
      if b.num = 0 then FloatV.nan
      else if 0 < b.num then FloatV.neginf else FloatV.inf
  | FloatV.finite a, FloatV.neginf =>
      if a.num = 0 then FloatV.nan
      else if 0 < a.num then FloatV.neginf else FloatV.inf
  | FloatV.finite a, FloatV.finite b => mkFloat (qMul a b)

/-- IEEE division on the special-value model. The RIFT evaluator only
reaches this after its own `right == 0` guard, so a zero finite divisor
cannot occur on a reachable path; it is mapped to NaN here. -/
def fDiv : FloatV → FloatV → FloatV
  | FloatV.nan, _ => FloatV.nan
  | _, FloatV.nan => FloatV.nan
  | FloatV.inf, FloatV.inf => FloatV.nan
  | FloatV.inf, FloatV.neginf => FloatV.nan
  | FloatV.neginf, FloatV.inf => FloatV.nan
  | FloatV.neginf, FloatV.neginf => FloatV.nan
  | FloatV.inf, FloatV.finite b =>
      if 0 ≤ b.num then FloatV.inf else FloatV.neginf
  | FloatV.neginf, FloatV.finite b =>
      if 0 ≤ b.num then FloatV.neginf else FloatV.inf
  | FloatV.finite _, FloatV.inf => FloatV.finite (qOfInt 0)
  | FloatV.finite _, FloatV.neginf => FloatV.finite (qOfInt 0)
  | FloatV.finite a, FloatV.finite b =>
      if b.num = 0 then FloatV.nan else mkFloat (qDiv a b)

/-- IEEE equality: NaN is unequal to everything (itself included). -/
def fEq : FloatV → FloatV → Bool
  | FloatV.nan, _ => false
  | _, FloatV.nan => false
  | FloatV.inf, FloatV.inf => true
  | FloatV.neginf, FloatV.neginf => true
  | FloatV.finite a, FloatV.finite b => qEqB a b
  | _, _ => false

/-- IEEE strict less-than: any comparison with NaN is false. -/
def fLt : FloatV → FloatV → Bool
  | FloatV.nan, _ => false
  | _, FloatV.nan => false
  | FloatV.neginf, FloatV.neginf => false
  | FloatV.neginf, _ => true
  | _, FloatV.neginf => false
  | FloatV.inf, _ => false
  | FloatV.finite _, FloatV.inf => true
  | FloatV.finite a, FloatV.finite b => qLtB a b

/-- IEEE non-strict less-or-equal: any comparison with NaN is false. -/
def fLe (a b : FloatV) : Bool := fLt a b || fEq a b

end RiftSpec

namespace RiftSpec

/-- Runtime values of the evaluator (`src/interpreter.py`, `src/types.py`).
Heap objects that the source handles by reference (functions, lambdas,
classes, instances) are table indices into the `State` record, which also
models Python object identity for them. `vrange` is the host `range`
object returned by `_eval_Range` (step is always 1). -/
inductive Value where
  | vnone
  | vbool (b : Bool)
  | vint (i : ℤ)
  | vfloat (f : FloatV)
  | vstr (s : String)
  | vlist (xs : List Value)
  | vmap (entries : List (Value × Value))
  | vrange (start stop : ℤ)
  | vfunc (fid : ℕ)
  | vlam (lid : ℕ)
  | vclass (cid : ℕ)
  | vinst (iid : ℕ)

/-- Python numbers in numeric positions: `bool` counts as an integer. -/
inductive NumV where
  | int (i : ℤ)
  | float (f : FloatV)
deriving DecidableEq

/-- The numeric view of a value (`isinstance(x, (int, float))`, with
`bool` a subclass of `int`). -/
def asNum : Value → Option NumV
  | Value.vbool b => some (NumV.int (if b then 1 else 0))
  | Value.vint i => some (NumV.int i)
  | Value.vfloat f => some (NumV.float f)
  | _ => none

/-- Conversion of a number to the float model, as Python promotion does.
(CPython raises OverflowError converting an integer beyond the double
range; that is modelled as an overflow to infinity and never reached.) -/
def toF : NumV → FloatV
  | NumV.int i => mkFloat ⟨i, 1⟩
  | NumV.float f => f

def numAdd : NumV → NumV → NumV
  | NumV.int a, NumV.int b => NumV.int (a + b)
  | a, b => NumV.float (fAdd (toF a) (toF b))

def numSub : NumV → NumV → NumV
  | NumV.int a, NumV.int b => NumV.int (a - b)
  | a, b => NumV.float (fSub (toF a) (toF b))

def numMul : NumV → NumV → NumV
  | NumV.int a, NumV.int b => NumV.int (a * b)
  | a, b => NumV.float (fMul (toF a) (toF b))

/-- Python true division `/`: the result is always a float. -/
def numDiv (a b : NumV) : NumV := NumV.float (fDiv (toF a) (toF b))

/-- Python numeric equality across `bool`/`int`/`float`. -/
def numEq : NumV → NumV → Bool
  | NumV.int a, NumV.int b => a = b
  | a, b => fEq (toF a) (toF b)

/-- Python numeric strict order across `bool`/`int`/`float`. -/
def numLt : NumV → NumV → Bool
  | NumV.int a, NumV.int b => a < b
  | a, b => fLt (toF a) (toF b)

def numLe (a b : NumV) : Bool := numLt a b || numEq a b

/-- Host `range` object equality (`range(a,b) == range(c,d)`): equal when
they denote the same sequence. -/
def rangeEqB (a1 b1 a2 b2 : ℤ) : Bool :=
  (max (b1 - a1) 0 = max (b2 - a2) 0) && (b1 - a1 ≤ 0 || a1 = a2)

/-- Sub-computations of the two value-comparison routines below. -/
inductive EqTask where
  | v (a b : Value)
  | l (xs ys : List Value)
  | es (xs ys : List (Value × Value))
  | look (k w : Value) (ys : List (Value × Value))

/-- Python object identity, idealised as structural equality of the model
values; on the diagonal (the only use made of it) the idealisation is
exact. Fuel-indexed so that the definition is kernel-computable. -/
def videT : ℕ → EqTask → Bool
  | 0, _ => false
  | Nat.succ n, t =>
    match t with
    | EqTask.v a b =>
      match a, b with
      | Value.vnone, Value.vnone => true
      | Value.vbool x, Value.vbool y => x = y
      | Value.vint x, Value.vint y => x = y
      | Value.vfloat x, Value.vfloat y => x = y
      | Value.vstr x, Value.vstr y => x = y
      | Value.vlist xs, Value.vlist ys => videT n (EqTask.l xs ys)
      | Value.vmap xs, Value.vmap ys => videT n (EqTask.es xs ys)
      | Value.vrange x1 y1, Value.vrange x2 y2 => x1 = x2 && y1 = y2
      | Value.vfunc i, Value.vfunc j => i = j
      | Value.vlam i, Value.vlam j => i = j
      | Value.vclass i, Value.vclass j => i = j
      | Value.vinst i, Value.vinst j => i = j
      | _, _ => false
    | EqTask.l xs ys =>
      match xs, ys with
      | [], [] => true
      | x :: xs, y :: ys => videT n (EqTask.v x y) && videT n (EqTask.l xs ys)
      | _, _ => false
    | EqTask.es xs ys =>
      match xs, ys with
      | [], [] => true
      | (k1, w1) :: xs, (k2, w2) :: ys =>
          videT n (EqTask.v k1 k2) && videT n (EqTask.v w1 w2) &&
          videT n (EqTask.es xs ys)
      | _, _ => false
    | EqTask.look _ _ _ => false

def vident (n : ℕ) (a b : Value) : Bool := videT n (EqTask.v a b)

/-- Python `==` (`PyObject_RichCompare` for the value kinds the evaluator
produces). Containers compare elementwise with `PyObject_RichCompareBool`,
whose identity fast path is the `videT`-disjunct; the top-level comparison
has no such fast path, so a bare NaN is unequal to itself while a container
compared with itself is equal throughout. Dictionary comparison checks
equal size and then looks each key of the left side up on the right.
Fuel-indexed; exhausted fuel yields `false` and is never reached from the
evaluator, which always supplies sufficient fuel. -/
def pyEqT : ℕ → EqTask → Bool
  | 0, _ => false
  | Nat.succ n, t =>
    match t with
    | EqTask.v a b =>
      match asNum a, asNum b with
      | some x, some y => numEq x y
      | _, _ =>
        match a, b with
        | Value.vnone, Value.vnone => true
        | Value.vstr s, Value.vstr t => s = t
        | Value.vlist xs, Value.vlist ys =>
            Nat.beq xs.length ys.length && pyEqT n (EqTask.l xs ys)
        | Value.vmap xs, Value.vmap ys =>
            Nat.beq xs.length ys.length && pyEqT n (EqTask.es xs ys)
        | Value.vrange a1 b1, Value.vrange a2 b2 => rangeEqB a1 b1 a2 b2
        | Value.vfunc i, Value.vfunc j => i = j
        | Value.vlam i, Value.vlam j => i = j
        | Value.vclass i, Value.vclass j => i = j
        | Value.vinst i, Value.vinst j => i = j
        | _, _ => false
    | EqTask.l xs ys =>
      match xs, ys with
      | [], [] => true
      | x :: xs, y :: ys =>
          (vident n x y || pyEqT n (EqTask.v x y)) && pyEqT n (EqTask.l xs ys)
      | _, _ => false
    | EqTask.es xs ys =>
      match xs, ys with
      | [], _ => true
      | (k, w) :: xs, ys => pyEqT n (EqTask.look k w ys) && pyEqT n (EqTask.es xs ys)
    | EqTask.look k w ys =>
      match ys with
      | [] => false
      | (k2, w2) :: ys =>
          if vident n k2 k || pyEqT n (EqTask.v k2 k) then
            vident n w w2 || pyEqT n (EqTask.v w w2)
          else pyEqT n (EqTask.look k w ys)

def pyEq (n : ℕ) (a b : Value) : Bool := pyEqT n (EqTask.v a b)

/-- `Interpreter._is_truthy`. A host range object reaches the final
catch-all and is always truthy. -/
def isTruthy : Value → Bool
  | Value.vnone => false
  | Value.vbool b => b
  | Value.vint i => !(i = 0 : Bool)
  | Value.vfloat (FloatV.finite q) => !(q.num = 0 : Bool)
  | Value.vfloat _ => true
  | Value.vstr s => !(s = "" : Bool)
  | Value.vlist xs => !xs.isEmpty
  | Value.vmap es => !es.isEmpty
  | _ => true

end RiftSpec

namespace RiftSpec

/-- Literal constants as produced by `Parser.parse_primary` for NUMBER,
STRING, YES, NO and NONE tokens. -/
inductive Const where
  | cnone
  | cbool (b : Bool)
  | cint (i : ℤ)
  | cfloat (f : FloatV)
  | cstr (s : String)

mutual

/-- Expression nodes of `src/ast_nodes.py`, restricted to the constructs
the claims under study exercise. Spread elements, member/index access,
ternary, null-coalesce, await and template strings are not modelled. -/
inductive Expr where
  | lit (c : Const)
  | ident (name : String)
  | binop (op : String) (l r : Expr)
  | assign (op : String) (target : Expr) (value : Expr)
  | call (callee : Expr) (args : List Expr)
  | lam (params : List Param) (body : Stmt)
  | rangeE (startE endE : Expr) (inclusive : Bool)
  | pipeline (value : Expr) (stages : List Expr)
  | listE (elems : List Expr)
  | yieldE (value : Option Expr)

/-- Statement nodes of `src/ast_nodes.py`, restricted to the constructs
the claims under study exercise (`if`/`while`/`repeat`, classes, imports
and destructuring are not modelled; classes enter the `State` directly). -/
inductive Stmt where
  | exprStmt (e : Expr)
  | block (stmts : List Stmt)
  | varDecl (kind : String) (name : String) (init : Option Expr)
  | funcDecl (name : String) (params : List Param) (body : Stmt)
  | giveStmt (value : Option Expr)
  | stopStmt
  | nextStmt
  | checkStmt (scrut : Expr) (cases : List CaseC)
  | tryStmt (tryB : Stmt) (catchVar : Option String)
      (catchB : Option Stmt) (finB : Option Stmt)

/-- A declared parameter: name, optional default expression, rest flag. -/
inductive Param where
  | mk (name : String) (default : Option Expr) (rest : Bool)

/-- One `check` case: pattern, optional guard, body. -/
inductive CaseC where
  | mk (pat : Pattern) (guard : Option Expr) (body : Stmt)

/-- Patterns dispatched by `Interpreter._match_pattern`. A `pexpr` is the
fall-through that evaluates the pattern as an ordinary expression and
compares by equality. Map patterns are not modelled. -/
inductive Pattern where
  | wildcard
  | plit (c : Const)
  | pbind (name : String)
  | prange (startE endE : Expr)
  | plist (ps : List Pattern)
  | pexpr (e : Expr)

end

def Param.name : Param → String
  | Param.mk n _ _ => n

def Param.default : Param → Option Expr
  | Param.mk _ d _ => d

def Param.rest : Param → Bool
  | Param.mk _ _ r => r

def CaseC.pat : CaseC → Pattern
  | CaseC.mk p _ _ => p

def CaseC.guard : CaseC → Option Expr
  | CaseC.mk _ g _ => g

def CaseC.body : CaseC → Stmt
  | CaseC.mk _ _ b => b

/-- The runtime value denoted by a literal constant. -/
def constV : Const → Value
  | Const.cnone => Value.vnone
  | Const.cbool b => Value.vbool b
  | Const.cint i => Value.vint i
  | Const.cfloat f => Value.vfloat f
  | Const.cstr s => Value.vstr s

/-- `Parser.parse_range` builds an `ast.Range` node without passing
`inclusive`, for both the `..` (RANGE) and `to` (TO) tokens, so the
dataclass default `inclusive = True` applies to both. -/
def mkRangeNode (startE endE : Expr) : Expr := Expr.rangeE startE endE true

/-- One scope of `src/environment.py`: parent pointer, insertion-ordered
variable map, and the name sets `_immutables` and `_constants`. -/
structure EnvD where
  parent : Option ℕ
  vars : List (String × Value)
  immutables : List String
  constants : List String

/-- A `RiftFunction`: declaration pieces plus captured scope. -/
structure FuncV where
  fname : String
  params : List Param
  body : Stmt
  closure : ℕ

/-- A `RiftLambda`: lambda node pieces plus captured scope. -/
structure LamV where
  params : List Param
  body : Stmt
  closure : ℕ

/-- A `RiftClass` as `_instantiate_class` consumes it: the own-property
defaults (already evaluated at class-declaration time) and the optional
constructor. Methods and statics play no role in the claims under study
and are not modelled. -/
structure ClassV where
  cname : String
  props : List (String × Value)
  ctorParams : List Param
  ctorBody : Option Stmt

/-- A `RiftInstance`: its class and its own-property map. -/
structure InstV where
  cls : ℕ
  props : List (String × Value)

/-- The interpreter state: the environment arena, the heap tables for
functions, lambdas, classes and instances, and `Interpreter.current_env`. -/
structure State where
  envs : List EnvD
  funcs : List FuncV
  lams : List LamV
  classes : List ClassV
  insts : List InstV
  cur : ℕ

/-- Insertion-ordered update of a Python dict held as an association
list: existing keys are overwritten in place, new keys are appended. -/
def alUpdate (l : List (String × Value)) (k : String) (v : Value) :
    List (String × Value) :=
  match l with
  | [] => [(k, v)]
  | (k2, w) :: rest =>
      if k2 = k then (k, v) :: rest else (k2, w) :: alUpdate rest k v

def alLookup (l : List (String × Value)) (k : String) : Option Value :=
  match l with
  | [] => none
  | (k2, w) :: rest => if k2 = k then some w else alLookup rest k

def alHas (l : List (String × Value)) (k : String) : Bool :=
  (alLookup l k).isSome

/-- Replace the environment at index `i` (no-op when out of range). -/
def setEnv (st : State) (i : ℕ) (e : EnvD) : State :=
  { st with envs := st.envs.set i e }

/-- `Environment.define`: bind in the given scope; an immutable (`let`)
binding joins `_immutables`, a constant joins both sets. Neither set ever
shrinks, exactly as in the source. -/
def envDefine (st : State) (eid : ℕ) (name : String) (v : Value)
    (mutFlag constFlag : Bool) : State :=
  match st.envs[eid]? with
  | none => st
  | some e =>
      setEnv st eid
        { e with
          vars := alUpdate e.vars name v
          immutables :=
            if mutFlag && !constFlag then e.immutables else name :: e.immutables
          constants := if constFlag then name :: e.constants else e.constants }

/-- `Environment.get`: walk the parent chain for the nearest binding;
`NameError` when absent. The `fuel` bounds the chain walk (the chain
produced by the evaluator is acyclic, and every caller passes a bound
exceeding its length). -/
def envGetF (fuel : ℕ) (st : State) (eid : ℕ) (name : String) : Option Value :=
  match fuel with
  | 0 => none
  | Nat.succ fuel =>
      match st.envs[eid]? with
      | none => none
      | some e =>
          match alLookup e.vars name with
          | some v => some v
          | none =>
              match e.parent with
              | some p => envGetF fuel st p name
              | none => none

def envGet (st : State) (eid : ℕ) (name : String) : Option Value :=
  envGetF (st.envs.length + 1) st eid name

/-- The scope `Environment.set` writes to: the nearest scope on the parent
chain whose `_variables` contains the name. -/
def resolveF (fuel : ℕ) (st : State) (eid : ℕ) (name : String) : Option ℕ :=
  match fuel with
  | 0 => none
  | Nat.succ fuel =>
      match st.envs[eid]? with
      | none => none
      | some e =>
          if alHas e.vars name then some eid
          else
            match e.parent with
            | some p => resolveF fuel st p name
            | none => none

/-- Outcome of `Environment.set`. -/
inductive SetRes where
  | good
  | assignErr
  | nameErr

/-- `Environment.set`: fail with `AssignmentError` when the nearest holder
marks the name constant or immutable (checked in that order, before any
mutation, so a failing write leaves the state untouched); otherwise
overwrite; `NameError` when no scope holds the name. -/
def envSetF (fuel : ℕ) (st : State) (eid : ℕ) (name : String) (v : Value) :
    SetRes × State :=
  match fuel with
  | 0 => (SetRes.nameErr, st)
  | Nat.succ fuel =>
      match st.envs[eid]? with
      | none => (SetRes.nameErr, st)
      | some e =>
          if alHas e.vars name then
            if name ∈ e.constants then (SetRes.assignErr, st)
            else if name ∈ e.immutables then (SetRes.assignErr, st)
            else (SetRes.good, setEnv st eid { e with vars := alUpdate e.vars name v })
          else
            match e.parent with
            | some p => envSetF fuel st p name v
            | none => (SetRes.nameErr, st)

def envSet (st : State) (eid : ℕ) (name : String) (v : Value) :
    SetRes × State :=
  envSetF (st.envs.length + 1) st eid name v

/-- `Environment.child`: append a fresh scope with the given parent and
return its index. -/
def newEnv (st : State) (parent : ℕ) : State × ℕ :=
  ({ st with envs := st.envs ++ [⟨some parent, [], [], []⟩] }, st.envs.length)

end RiftSpec

namespace RiftSpec

/-- Error kinds. The first group are the `RiftError` subclasses of
`src/errors.py`; the `py*` kinds are uncaught host (Python) exceptions
escaping the interpreter code itself; `modelGap` marks source branches
outside the modelled fragment, reached by no theorem below. -/
inductive ErrKind where
  | runtimeErr
  | typeErr
  | nameErr
  | assignErr
  | divZeroErr
  | argErr
  | indexErr
  | keyErr
  | importErr
  | pyTypeErr
  | pyAttrErr
  | pyZeroDivErr
  | modelGap

/-- The four control-flow signals of `src/errors.py` (`Exception`
subclasses that are not `RiftError` subclasses). -/
inductive Sig where
  | ret (v : Value)
  | brk
  | cont
  | yld (v : Value)

/-- Evaluation outcome: a value, a raised error, a raised control-flow
signal, or fuel exhaustion (a model artifact only). -/
inductive Res (α : Type) where
  | ok (a : α)
  | err (k : ErrKind)
  | signal (s : Sig)
  | timeout

/-- Python `str()` of a value. Exact for `None`, booleans, integers and
text (the only kinds any proved statement could meet); the remaining
renderings are coarse placeholders, never examined by a theorem. -/
def pyStr : Value → String
  | Value.vnone => "None"
  | Value.vbool true => "True"
  | Value.vbool false => "False"
  | Value.vint i => toString i
  | Value.vstr s => s
  | Value.vfloat FloatV.inf => "inf"
  | Value.vfloat FloatV.neginf => "-inf"
  | Value.vfloat FloatV.nan => "nan"
  | Value.vfloat (FloatV.finite _) => "<float>"
  | Value.vlist _ => "<list>"
  | Value.vmap _ => "<map>"
  | Value.vrange _ _ => "<range>"
  | Value.vfunc _ => "<conduit>"
  | Value.vlam _ => "<lambda>"
  | Value.vclass _ => "<class>"
  | Value.vinst _ => "<instance>"

/-- The integer view Python repetition accepts (`bool` is an `int`). -/
def asIntLike : Value → Option ℤ
  | Value.vint i => some i
  | Value.vbool b => some (if b then 1 else 0)
  | _ => none

def isStrV : Value → Bool
  | Value.vstr _ => true
  | _ => false

def strRepeat (s : String) (i : ℤ) : String :=
  String.join (List.replicate i.toNat s)

def listRepeat (xs : List Value) (i : ℤ) : List Value :=
  List.flatten (List.replicate i.toNat xs)

/-- Raw Python `+` (used directly by compound assignment; `_eval_BinaryOp`
adds its own string-coercion branch in front). -/
def pyAdd (l r : Value) : Res Value :=
  match asNum l, asNum r with
  | some a, some b => Res.ok (match numAdd a b with
      | NumV.int i => Value.vint i
      | NumV.float f => Value.vfloat f)
  | _, _ =>
    match l, r with
    | Value.vstr a, Value.vstr b => Res.ok (Value.vstr (a ++ b))
    | Value.vlist a, Value.vlist b => Res.ok (Value.vlist (a ++ b))
    | _, _ => Res.err ErrKind.pyTypeErr

/-- Raw Python `-`. -/
def pySub (l r : Value) : Res Value :=
  match asNum l, asNum r with
  | some a, some b => Res.ok (match numSub a b with
      | NumV.int i => Value.vint i
      | NumV.float f => Value.vfloat f)
  | _, _ => Res.err ErrKind.pyTypeErr

/-- Raw Python `*`, including text and sequence repetition. -/
def pyMul (l r : Value) : Res Value :=
  match asNum l, asNum r with
  | some a, some b => Res.ok (match numMul a b with
      | NumV.int i => Value.vint i
      | NumV.float f => Value.vfloat f)
  | _, _ =>
    match l, r with
    | Value.vstr s, _ =>
        match asIntLike r with
        | some i => Res.ok (Value.vstr (strRepeat s i))
        | none => Res.err ErrKind.pyTypeErr
    | _, Value.vstr s =>
        match asIntLike l with
        | some i => Res.ok (Value.vstr (strRepeat s i))
        | none => Res.err ErrKind.pyTypeErr
    | Value.vlist xs, _ =>
        match asIntLike r with
        | some i => Res.ok (Value.vlist (listRepeat xs i))
        | none => Res.err ErrKind.pyTypeErr
    | _, Value.vlist xs =>
        match asIntLike l with
        | some i => Res.ok (Value.vlist (listRepeat xs i))
        | none => Res.err ErrKind.pyTypeErr
    | _, _ => Res.err ErrKind.pyTypeErr

/-- Raw Python `/` (true division; only reached by `_eval_BinaryOp` after
its `right == 0` guard, and by compound `/=` which has no such guard). -/
def pyDivRaw (l r : Value) : Res Value :=
  match asNum l, asNum r with
  | some a, some b =>
      if numEq b (NumV.int 0) then Res.err ErrKind.pyZeroDivErr
      else Res.ok (match numDiv a b with
        | NumV.int i => Value.vint i
        | NumV.float f => Value.vfloat f)
  | _, _ => Res.err ErrKind.pyTypeErr

/-- Raw Python `%` on integers (Python's sign convention agrees with
`Int.emod`); other operand kinds are outside the modelled fragment. -/
def pyMod (l r : Value) : Res Value :=
  match l, r with
  | Value.vint a, Value.vint b =>
      if b = 0 then Res.err ErrKind.pyZeroDivErr else Res.ok (Value.vint (a % b))
  | _, _ => Res.err ErrKind.modelGap

/-- Python strict comparison for `<` and (with arguments swapped) `>`. -/
def pyLtB (l r : Value) : Res Bool :=
  match asNum l, asNum r with
  | some a, some b => Res.ok (numLt a b)
  | _, _ =>
    match l, r with
    | Value.vstr a, Value.vstr b => Res.ok (decide (a < b))
    | _, _ => Res.err ErrKind.pyTypeErr

/-- Python non-strict comparison for `<=` and (swapped) `>=`. -/
def pyLeB (l r : Value) : Res Bool :=
  match asNum l, asNum r with
  | some a, some b => Res.ok (numLe a b)
  | _, _ =>
    match l, r with
    | Value.vstr a, Value.vstr b => Res.ok (decide (a ≤ b))
    | _, _ => Res.err ErrKind.pyTypeErr

/-- Python `in` restricted to sequence membership (element compared with
the `RichCompareBool` identity-or-equality rule); other containers are
outside the modelled fragment. -/
def pyInB (n : ℕ) (l r : Value) : Res Bool :=
  match r with
  | Value.vlist xs => Res.ok (xs.any (fun x => vident n x l || pyEq n x l))
  | _ => Res.err ErrKind.modelGap

/-- `Interpreter._eval_BinaryOp` on already-evaluated operands. The whole
dispatch runs inside `try/except TypeError`, but the module's import list
shadows `TypeError` with the RIFT error class, and the dispatch itself
never raises that class: the clause is a kind-preserving re-raise that
never fires, so host TypeErrors (`pyTypeErr`) propagate unconverted and
the dispatch result stands as is. `DivisionByZeroError` is a `RiftError`
and passes through. The fuel feeds the `==` model. -/
def evalBinOpVal (n : ℕ) (op : String) (l r : Value) : Res Value :=
  if op = "+" then
    if isStrV l || isStrV r then Res.ok (Value.vstr (pyStr l ++ pyStr r))
    else pyAdd l r
  else if op = "-" then pySub l r
  else if op = "*" then pyMul l r
  else if op = "/" then
    if pyEq n r (Value.vint 0) then Res.err ErrKind.divZeroErr
    else pyDivRaw l r
  else if op = "%" then pyMod l r
  else if op = "**" then Res.err ErrKind.modelGap
  else if op = "==" then Res.ok (Value.vbool (pyEq n l r))
  else if op = "!=" then Res.ok (Value.vbool (!pyEq n l r))
  else if op = "<" then
    match pyLtB l r with
    | Res.ok b => Res.ok (Value.vbool b)
    | Res.err k => Res.err k
    | Res.signal s => Res.signal s
    | Res.timeout => Res.timeout
  else if op = ">" then
    match pyLtB r l with
    | Res.ok b => Res.ok (Value.vbool b)
    | Res.err k => Res.err k
    | Res.signal s => Res.signal s
    | Res.timeout => Res.timeout
  else if op = "<=" then
    match pyLeB l r with
    | Res.ok b => Res.ok (Value.vbool b)
    | Res.err k => Res.err k
    | Res.signal s => Res.signal s
    | Res.timeout => Res.timeout
  else if op = ">=" then
    match pyLeB r l with
    | Res.ok b => Res.ok (Value.vbool b)
    | Res.err k => Res.err k
    | Res.signal s => Res.signal s
    | Res.timeout => Res.timeout
  else if op = "in" then
    match pyInB n l r with
    | Res.ok b => Res.ok (Value.vbool b)
    | Res.err k => Res.err k
    | Res.signal s => Res.signal s
    | Res.timeout => Res.timeout
  else Res.err ErrKind.runtimeErr

/-- The base operation a compound assignment applies, using the raw host
operators as `_eval_Assignment` does (no string coercion). -/
def compoundOp (op : String) (old v : Value) : Res Value :=
  if op = "+=" then pyAdd old v
  else if op = "-=" then pySub old v
  else if op = "*=" then pyMul old v
  else if op = "/=" then pyDivRaw old v
  else Res.ok v

end RiftSpec

namespace RiftSpec

/-- The callable attributes the host (CPython) object behind each value
kind exposes to `hasattr`/`callable` — what `Interpreter._try_get_method`
actually consults. Double-underscore attributes are omitted (no RIFT
identifier in the claims' scope names one). `RiftFunction`, `RiftLambda`
and `RiftClass` expose no public callable attribute; `RiftInstance`
exposes its three Python helper methods. -/
def pyCallableAttrs : Value → List String
  | Value.vlist _ =>
      ["append", "clear", "copy", "count", "extend", "index", "insert",
       "pop", "remove", "reverse", "sort"]
  | Value.vstr _ =>
      ["capitalize", "casefold", "center", "count", "encode", "endswith",
       "expandtabs", "find", "format", "format_map", "index", "isalnum",
       "isalpha", "isascii", "isdecimal", "isdigit", "isidentifier",
       "islower", "isnumeric", "isprintable", "isspace", "istitle",
       "isupper", "join", "ljust", "lower", "lstrip", "maketrans",
       "partition", "removeprefix", "removesuffix", "replace", "rfind",
       "rindex", "rjust", "rpartition", "rsplit", "rstrip", "split",
       "splitlines", "startswith", "strip", "swapcase", "title",
       "translate", "upper", "zfill"]
  | Value.vint _ =>
      ["as_integer_ratio", "bit_count", "bit_length", "conjugate",
       "from_bytes", "to_bytes"]
  | Value.vbool _ =>
      ["as_integer_ratio", "bit_count", "bit_length", "conjugate",
       "from_bytes", "to_bytes"]
  | Value.vfloat _ =>
      ["as_integer_ratio", "conjugate", "fromhex", "hex", "is_integer"]
  | Value.vrange _ _ => ["count", "index"]
  | Value.vmap _ =>
      ["clear", "copy", "fromkeys", "get", "items", "keys", "pop",
       "popitem", "setdefault", "update", "values"]
  | Value.vinst _ => ["get_method", "get_property", "set_property"]
  | _ => []

/-- A bound host attribute as returned by `_try_get_method`: the receiver
together with the attribute name. -/
structure PyM where
  recv : Value
  mname : String

/-- Whether a RIFT value is a Python callable. Only host functions would
be; none of them exists in the modelled global scope, so this is
uniformly false (it feeds the dict-entry branch of `_try_get_method`). -/
def isPyCallable : Value → Bool := fun _ => false

/-- Python-level `==` membership for dict keys is irrelevant here because
`_try_get_method` indexes dicts by the exact method-name string. -/
def mapLookupStr (es : List (Value × Value)) (k : String) : Option Value :=
  match es with
  | [] => none
  | (Value.vstr s, w) :: rest =>
      if s = k then some w else mapLookupStr rest k
  | _ :: rest => mapLookupStr rest k

/-- `Interpreter._try_get_method`: `hasattr(obj, name)` plus `callable`,
then the dict-entry fallback; `None` when nothing is found. -/
def tryGetMethod (v : Value) (m : String) : Option PyM :=
  if m ∈ pyCallableAttrs v then some ⟨v, m⟩
  else
    match v with
    | Value.vmap es =>
        match mapLookupStr es m with
        | some w => if isPyCallable w then some ⟨v, m⟩ else none
        | none => none
    | _ => none

/-- Invoking a bound host attribute. Only the attributes a theorem below
exercises are given semantics; `list.reverse`/`list.sort`/`list.append`
mutate in place and return `None` (the mutation is unobservable in the
programs proved about, which never alias the receiver). Everything else
is outside the modelled fragment. -/
def callPyMethod (pm : PyM) (args : List Value) : Res Value :=
  match pm.recv, pm.mname, args with
  | Value.vlist _, "reverse", [] => Res.ok Value.vnone
  | Value.vlist _, "sort", [] => Res.ok Value.vnone
  | Value.vlist _, "append", [_] => Res.ok Value.vnone
  | Value.vlist xs, "count", [x] =>
      Res.ok (Value.vint (xs.countP (fun y => pyEq (Nat.succ 64) y x = true)))
  | Value.vstr s, "upper", [] => Res.ok (Value.vstr s.toUpper)
  | Value.vstr s, "lower", [] => Res.ok (Value.vstr s.toLower)
  | _, _, _ => Res.err ErrKind.modelGap

/-- `Interpreter._call` invokes a Python callable under
`try/except TypeError`; the module's import list shadows `TypeError`
with the RIFT error class, so the clause converts a RIFT `TypeError`
raised inside the callee (as some host built-ins do) to the RIFT
`ArgumentError`, while host TypeErrors propagate unconverted. -/
def wrapHost (r : Res Value) : Res Value :=
  match r with
  | Res.err ErrKind.typeErr => Res.err ErrKind.argErr
  | x => x

/-- The auto-return source position: the expression of the last statement
of a block body, when that statement is an expression statement
(`_call_function`, lines 919-922). -/
def lastExprStmt : Stmt → Option Expr
  | Stmt.block stmts =>
      match stmts.getLast? with
      | some (Stmt.exprStmt e) => some e
      | _ => none
  | _ => none

end RiftSpec

namespace RiftSpec

/-- Intermediate results of evaluator sub-computations. -/
inductive Out where
  | val (v : Value)
  | vals (vs : List Value)
  | pat (matched : Bool) (binds : List (String × Value))

/-- `dict.update` over accumulated pattern bindings. -/
def bindsUpdate (old new : List (String × Value)) : List (String × Value) :=
  new.foldl (fun acc kv => alUpdate acc kv.1 kv.2) old

/-- Define every collected binding immutably in the given scope. -/
def defineAll (st : State) (eid : ℕ) (binds : List (String × Value)) : State :=
  binds.foldl (fun s kv => envDefine s eid kv.1 kv.2 false false) st

/-- `str(e)` of a caught exception, elided to the kind's name (the claims
under study never examine the text). -/
def errText : ErrKind → String
  | ErrKind.runtimeErr => "RuntimeError"
  | ErrKind.typeErr => "TypeError"
  | ErrKind.nameErr => "NameError"
  | ErrKind.assignErr => "AssignmentError"
  | ErrKind.divZeroErr => "DivisionByZeroError"
  | ErrKind.argErr => "ArgumentError"
  | ErrKind.indexErr => "IndexError"
  | ErrKind.keyErr => "KeyError"
  | ErrKind.importErr => "ImportError"
  | ErrKind.pyTypeErr => "TypeError"
  | ErrKind.pyZeroDivErr => "ZeroDivisionError"
  | ErrKind.pyAttrErr => "AttributeError"
  | ErrKind.modelGap => "ModelGap"

/-- The integer view `_eval_Range` accepts (`isinstance(x, int)`, which a
`bool` satisfies). -/
def asRangeInt : Value → Option ℤ
  | Value.vint i => some i
  | Value.vbool b => some (if b then 1 else 0)
  | _ => none

/-- Assignment-target dispatch of `_eval_Assignment` for identifier
targets; member and index targets are outside the modelled fragment
(no claim exercises them), and any other target shape is the source's
final `Invalid assignment target` error. -/
def assignTarget (st : State) (target : Expr) (v : Value) : Res Out × State :=
  match target with
  | Expr.ident name =>
      match envSet st st.cur name v with
      | (SetRes.good, st2) => (Res.ok (Out.val v), st2)
      | (SetRes.assignErr, st2) => (Res.err ErrKind.assignErr, st2)
      | (SetRes.nameErr, st2) => (Res.err ErrKind.nameErr, st2)
  | Expr.binop _ _ _ => (Res.err ErrKind.runtimeErr, st)
  | _ => (Res.err ErrKind.modelGap, st)

/-- The evaluator's sub-computations, combined into one type so that the
whole evaluator is a single fuel-structural function. -/
inductive Task where
  | expr (e : Expr)
  | exprList (acc : List Value) (es : List Expr)
  | stmt (s : Stmt)
  | stmts (acc : Value) (ss : List Stmt)
  | callV (callee : Value) (args : List Value)
  | callFn (fid : ℕ) (args : List Value)
  | callLam (lid : ℕ) (args : List Value)
  | instCls (cid : ℕ) (args : List Value)
  | bindFn (eid : ℕ) (ps : List Param) (args : List Value)
  | bindLam (eid : ℕ) (ps : List Param) (args : List Value)
  | bindCtor (eid : ℕ) (ps : List Param) (args : List Value)
  | pipeStages (v : Value) (stages : List Expr)
  | callStage (v : Value) (m : String) (args : List Value)
  | caseList (v : Value) (cs : List CaseC)
  | matchP (p : Pattern) (v : Value)
  | matchList (acc : List (String × Value)) (ps : List Pattern) (vs : List Value)
  | guardT (binds : List (String × Value)) (g : Expr)
  | caseBody (binds : List (String × Value)) (body : Stmt)

end RiftSpec

namespace RiftSpec

/-- The RIFT evaluator (`Interpreter.evaluate` and its helpers), as one
fuel-indexed function over `Task`. Every recursive call decreases the
fuel; `Res.timeout` appears only on fuel exhaustion. Each `Task` arm is a
direct translation of the correspondingly named piece of
`src/interpreter.py`; the comments name the source methods. -/
def run : ℕ → State → Task → Res Out × State
  | 0, st, _ => (Res.timeout, st)
  | Nat.succ n, st, t =>
    match t with
    | Task.expr e =>
      match e with
      | Expr.lit c => (Res.ok (Out.val (constV c)), st)
      | Expr.ident name =>
          match envGet st st.cur name with
          | some v => (Res.ok (Out.val v), st)
          | none => (Res.err ErrKind.nameErr, st)
      | Expr.binop op l r =>
          match run n st (Task.expr l) with
          | (Res.ok (Out.val lv), st1) =>
              match run n st1 (Task.expr r) with
              | (Res.ok (Out.val rv), st2) =>
                  match evalBinOpVal n op lv rv with
                  | Res.ok v => (Res.ok (Out.val v), st2)
                  | Res.err k => (Res.err k, st2)
                  | Res.signal s => (Res.signal s, st2)
                  | Res.timeout => (Res.timeout, st2)
              | (Res.ok _, st2) => (Res.err ErrKind.modelGap, st2)
              | (r2, st2) => (r2, st2)
          | (Res.ok _, st1) => (Res.err ErrKind.modelGap, st1)
          | (r1, st1) => (r1, st1)
      | Expr.assign op target value =>
          match run n st (Task.expr value) with
          | (Res.ok (Out.val v), st1) =>
              if op = "=" then assignTarget st1 target v
              else
                match run n st1 (Task.expr target) with
                | (Res.ok (Out.val old), st2) =>
                    match compoundOp op old v with
                    | Res.ok v2 => assignTarget st2 target v2
                    | Res.err k => (Res.err k, st2)
                    | Res.signal s => (Res.signal s, st2)
                    | Res.timeout => (Res.timeout, st2)
                | (Res.ok _, st2) => (Res.err ErrKind.modelGap, st2)
                | (r2, st2) => (r2, st2)
          | (Res.ok _, st1) => (Res.err ErrKind.modelGap, st1)
          | (r1, st1) => (r1, st1)
      | Expr.call callee args =>
          match run n st (Task.expr callee) with
          | (Res.ok (Out.val cv), st1) =>
              match run n st1 (Task.exprList [] args) with
              | (Res.ok (Out.vals vs), st2) => run n st2 (Task.callV cv vs)
              | (Res.ok _, st2) => (Res.err ErrKind.modelGap, st2)
              | (r2, st2) => (r2, st2)
          | (Res.ok _, st1) => (Res.err ErrKind.modelGap, st1)
          | (r1, st1) => (r1, st1)
      | Expr.lam ps b =>
          (Res.ok (Out.val (Value.vlam st.lams.length)),
           { st with lams := st.lams ++ [⟨ps, b, st.cur⟩] })
      | Expr.rangeE startE endE inclusive =>
          match run n st (Task.expr startE) with
          | (Res.ok (Out.val sv), st1) =>
              match run n st1 (Task.expr endE) with
              | (Res.ok (Out.val ev), st2) =>
                  match asRangeInt sv, asRangeInt ev with
                  | some a, some b =>
                      if inclusive then (Res.ok (Out.val (Value.vrange a (b + 1))), st2)
                      else (Res.ok (Out.val (Value.vrange a b)), st2)
                  | _, _ => (Res.err ErrKind.typeErr, st2)
              | (Res.ok _, st2) => (Res.err ErrKind.modelGap, st2)
              | (r2, st2) => (r2, st2)
          | (Res.ok _, st1) => (Res.err ErrKind.modelGap, st1)
          | (r1, st1) => (r1, st1)
      | Expr.pipeline v stages =>
          match run n st (Task.expr v) with
          | (Res.ok (Out.val pv), st1) => run n st1 (Task.pipeStages pv stages)
          | (Res.ok _, st1) => (Res.err ErrKind.modelGap, st1)
          | (r1, st1) => (r1, st1)
      | Expr.listE elems =>
          match run n st (Task.exprList [] elems) with
          | (Res.ok (Out.vals vs), st1) => (Res.ok (Out.val (Value.vlist vs)), st1)
          | (Res.ok _, st1) => (Res.err ErrKind.modelGap, st1)
          | (r1, st1) => (r1, st1)
      | Expr.yieldE oe =>
          match oe with
          | none => (Res.signal (Sig.yld Value.vnone), st)
          | some e =>
              match run n st (Task.expr e) with
              | (Res.ok (Out.val v), st1) => (Res.signal (Sig.yld v), st1)
              | (Res.ok _, st1) => (Res.err ErrKind.modelGap, st1)
              | (r1, st1) => (r1, st1)
    | Task.exprList acc es =>
      match es with
      | [] => (Res.ok (Out.vals acc), st)
      | e :: rest =>
          match run n st (Task.expr e) with
          | (Res.ok (Out.val v), st1) => run n st1 (Task.exprList (acc ++ [v]) rest)
          | (Res.ok _, st1) => (Res.err ErrKind.modelGap, st1)
          | (r1, st1) => (r1, st1)
    | Task.stmt s =>
      match s with
      | Stmt.exprStmt e => run n st (Task.expr e)
      | Stmt.block ss => run n st (Task.stmts Value.vnone ss)
      | Stmt.varDecl kind name init =>
          match init with
          | none =>
              (Res.ok (Out.val Value.vnone),
               envDefine st st.cur name Value.vnone (kind = "mut") (kind = "const"))
          | some e =>
              match run n st (Task.expr e) with
              | (Res.ok (Out.val v), st1) =>
                  (Res.ok (Out.val Value.vnone),
                   envDefine st1 st1.cur name v (kind = "mut") (kind = "const"))
              | (Res.ok _, st1) => (Res.err ErrKind.modelGap, st1)
              | (r1, st1) => (r1, st1)
      | Stmt.funcDecl name ps body =>
          let fid := st.funcs.length
          let st1 := { st with funcs := st.funcs ++ [⟨name, ps, body, st.cur⟩] }
          (Res.ok (Out.val (Value.vfunc fid)),
           envDefine st1 st1.cur name (Value.vfunc fid) false false)
      | Stmt.giveStmt oe =>
          match oe with
          | none => (Res.signal (Sig.ret Value.vnone), st)
          | some e =>
              match run n st (Task.expr e) with
              | (Res.ok (Out.val v), st1) => (Res.signal (Sig.ret v), st1)
              | (Res.ok _, st1) => (Res.err ErrKind.modelGap, st1)
              | (r1, st1) => (r1, st1)
      | Stmt.stopStmt => (Res.signal Sig.brk, st)
      | Stmt.nextStmt => (Res.signal Sig.cont, st)
      | Stmt.checkStmt scrut cases =>
          match run n st (Task.expr scrut) with
          | (Res.ok (Out.val v), st1) => run n st1 (Task.caseList v cases)
          | (Res.ok _, st1) => (Res.err ErrKind.modelGap, st1)
          | (r1, st1) => (r1, st1)
      | Stmt.tryStmt tb cv cb fb =>
          let afterTry : Res Out × State :=
            match run n st (Task.stmt tb) with
            | (Res.ok v, st1) => (Res.ok v, st1)
            | (Res.err k, st1) =>
                match cb with
                | some c =>
                    let p := newEnv st1 st1.cur
                    let st3 :=
                      match cv with
                      | some nm =>
                          envDefine p.1 p.2 nm (Value.vstr (errText k)) false false
                      | none => p.1
                    match run n { st3 with cur := p.2 } (Task.stmt c) with
                    | (rc, st5) => (rc, { st5 with cur := st1.cur })
                | none => (Res.err k, st1)
            | (Res.signal s, st1) => (Res.signal s, st1)
            | (Res.timeout, st1) => (Res.timeout, st1)
          match fb with
          | none => afterTry
          | some f =>
              match run n afterTry.2 (Task.stmt f) with
              | (Res.ok _, stf) => (afterTry.1, stf)
              | (rf, stf) => (rf, stf)
    | Task.stmts acc ss =>
      match ss with
      | [] => (Res.ok (Out.val acc), st)
      | s :: rest =>
          match run n st (Task.stmt s) with
          | (Res.ok (Out.val v), st1) => run n st1 (Task.stmts v rest)
          | (Res.ok _, st1) => (Res.err ErrKind.modelGap, st1)
          | (r1, st1) => (r1, st1)
    | Task.callV cv args =>
      match cv with
      | Value.vfunc fid => run n st (Task.callFn fid args)
      | Value.vlam lid => run n st (Task.callLam lid args)
      | Value.vclass cid => run n st (Task.instCls cid args)
      | _ => (Res.err ErrKind.typeErr, st)
    | Task.callFn fid args =>
      match st.funcs[fid]? with
      | none => (Res.err ErrKind.modelGap, st)
      | some fv =>
          let p := newEnv st fv.closure
          match run n p.1 (Task.bindFn p.2 fv.params args) with
          | (Res.ok _, st1) =>
              let prevCur := st1.cur
              match run n { st1 with cur := p.2 } (Task.stmt fv.body) with
              | (Res.ok (Out.val v), st3) =>
                  match lastExprStmt fv.body with
                  | some le =>
                      match run n st3 (Task.expr le) with
                      | (Res.ok (Out.val v2), st4) =>
                          (Res.ok (Out.val v2), { st4 with cur := prevCur })
                      | (Res.signal (Sig.ret rv), st4) =>
                          (Res.ok (Out.val rv), { st4 with cur := prevCur })
                      | (r3, st4) => (r3, { st4 with cur := prevCur })
                  | none => (Res.ok (Out.val v), { st3 with cur := prevCur })
              | (Res.ok _, st3) => (Res.err ErrKind.modelGap, { st3 with cur := prevCur })
              | (Res.signal (Sig.ret rv), st3) =>
                  (Res.ok (Out.val rv), { st3 with cur := prevCur })
              | (r2, st3) => (r2, { st3 with cur := prevCur })
          | (rb, st1) => (rb, st1)
    | Task.callLam lid args =>
      match st.lams[lid]? with
      | none => (Res.err ErrKind.modelGap, st)
      | some lv =>
          let p := newEnv st lv.closure
          match run n p.1 (Task.bindLam p.2 lv.params args) with
          | (Res.ok _, st1) =>
              let prevCur := st1.cur
              match run n { st1 with cur := p.2 } (Task.stmt lv.body) with
              | (Res.ok (Out.val v), st3) => (Res.ok (Out.val v), { st3 with cur := prevCur })
              | (Res.ok _, st3) => (Res.err ErrKind.modelGap, { st3 with cur := prevCur })
              | (Res.signal (Sig.ret rv), st3) =>
                  (Res.ok (Out.val rv), { st3 with cur := prevCur })
              | (r2, st3) => (r2, { st3 with cur := prevCur })
          | (rb, st1) => (rb, st1)
    | Task.instCls cid args =>
      match st.classes[cid]? with
      | none => (Res.err ErrKind.modelGap, st)
      | some cls =>
          let iid := st.insts.length
          let st1 := { st with insts := st.insts ++ [⟨cid, cls.props⟩] }
          match cls.ctorBody with
          | none => (Res.ok (Out.val (Value.vinst iid)), st1)
          | some body =>
              let p := newEnv st1 st1.cur
              let st3 := envDefine p.1 p.2 "me" (Value.vinst iid) false false
              match run n st3 (Task.bindCtor p.2 cls.ctorParams args) with
              | (Res.ok _, st4) =>
                  let prevCur := st4.cur
                  match run n { st4 with cur := p.2 } (Task.stmt body) with
                  | (Res.ok _, st6) => (Res.ok (Out.val (Value.vinst iid)), { st6 with cur := prevCur })
                  | (Res.signal (Sig.ret _), st6) =>
                      (Res.ok (Out.val (Value.vinst iid)), { st6 with cur := prevCur })
                  | (r2, st6) => (r2, { st6 with cur := prevCur })
              | (rb, st4) => (rb, st4)
    | Task.bindFn eid ps args =>
      match ps with
      | [] => (Res.ok (Out.val Value.vnone), st)
      | p :: rest =>
          if p.rest then
            (Res.ok (Out.val Value.vnone),
             envDefine st eid p.name (Value.vlist args) false false)
          else
            match args with
            | a :: argsTl =>
                run n (envDefine st eid p.name a false false) (Task.bindFn eid rest argsTl)
            | [] =>
                match p.default with
                | some d =>
                    match run n st (Task.expr d) with
                    | (Res.ok (Out.val dv), st1) =>
                        run n (envDefine st1 eid p.name dv false false) (Task.bindFn eid rest [])
                    | (Res.ok _, st1) => (Res.err ErrKind.modelGap, st1)
                    | (r1, st1) => (r1, st1)
                | none =>
                    run n (envDefine st eid p.name Value.vnone false false) (Task.bindFn eid rest [])
    | Task.bindLam eid ps args =>
      match ps with
      | [] => (Res.ok (Out.val Value.vnone), st)
      | p :: rest =>
          if p.rest then
            (Res.ok (Out.val Value.vnone),
             envDefine st eid p.name (Value.vlist args) false false)
          else
            match args with
            | a :: argsTl =>
                run n (envDefine st eid p.name a false false) (Task.bindLam eid rest argsTl)
            | [] =>
                match p.default with
                | some d =>
                    match run n { st with cur := eid } (Task.expr d) with
                    | (Res.ok (Out.val dv), st1) =>
                        run n (envDefine { st1 with cur := st.cur } eid p.name dv false false)
                          (Task.bindLam eid rest [])
                    | (Res.ok _, st1) => (Res.err ErrKind.modelGap, { st1 with cur := st.cur })
                    | (r1, st1) => (r1, { st1 with cur := st.cur })
                | none =>
                    run n (envDefine st eid p.name Value.vnone false false) (Task.bindLam eid rest [])
    | Task.bindCtor eid ps args =>
      match ps with
      | [] => (Res.ok (Out.val Value.vnone), st)
      | p :: rest =>
          match args with
          | a :: argsTl =>
              run n (envDefine st eid p.name a false false) (Task.bindCtor eid rest argsTl)
          | [] =>
              match p.default with
              | some d =>
                  match run n st (Task.expr d) with
                  | (Res.ok (Out.val dv), st1) =>
                      run n (envDefine st1 eid p.name dv false false) (Task.bindCtor eid rest [])
                  | (Res.ok _, st1) => (Res.err ErrKind.modelGap, st1)
                  | (r1, st1) => (r1, st1)
              | none =>
                  run n (envDefine st eid p.name Value.vnone false false) (Task.bindCtor eid rest [])
    | Task.pipeStages v stages =>
      match stages with
      | [] => (Res.ok (Out.val v), st)
      | stage :: rest =>
        match stage with
        | Expr.call (Expr.ident m) argEs =>
            match run n st (Task.exprList [] argEs) with
            | (Res.ok (Out.vals args), st1) =>
                match run n st1 (Task.callStage v m args) with
                | (Res.ok (Out.val v2), st2) => run n st2 (Task.pipeStages v2 rest)
                | (Res.ok _, st2) => (Res.err ErrKind.modelGap, st2)
                | (r2, st2) => (r2, st2)
            | (Res.ok _, st1) => (Res.err ErrKind.modelGap, st1)
            | (r1, st1) => (r1, st1)
        | Expr.call calleeE argEs =>
            match run n st (Task.expr calleeE) with
            | (Res.ok (Out.val cvv), st1) =>
                match run n st1 (Task.exprList [] argEs) with
                | (Res.ok (Out.vals args), st2) =>
                    match run n st2 (Task.callV cvv (args ++ [v])) with
                    | (Res.ok (Out.val v2), st3) => run n st3 (Task.pipeStages v2 rest)
                    | (Res.ok _, st3) => (Res.err ErrKind.modelGap, st3)
                    | (r3, st3) => (r3, st3)
                | (Res.ok _, st2) => (Res.err ErrKind.modelGap, st2)
                | (r2, st2) => (r2, st2)
            | (Res.ok _, st1) => (Res.err ErrKind.modelGap, st1)
            | (r1, st1) => (r1, st1)
        | Expr.lam ps b =>
            let lid := st.lams.length
            let st1 := { st with lams := st.lams ++ [⟨ps, b, st.cur⟩] }
            match run n st1 (Task.callLam lid [v]) with
            | (Res.ok (Out.val v2), st2) => run n st2 (Task.pipeStages v2 rest)
            | (Res.ok _, st2) => (Res.err ErrKind.modelGap, st2)
            | (r2, st2) => (r2, st2)
        | Expr.ident name =>
            match tryGetMethod v name with
            | some pm =>
                match wrapHost (callPyMethod pm []) with
                | Res.ok v2 => run n st (Task.pipeStages v2 rest)
                | Res.err k => (Res.err k, st)
                | Res.signal sg => (Res.signal sg, st)
                | Res.timeout => (Res.timeout, st)
            | none =>
                match run n st (Task.expr (Expr.ident name)) with
                | (Res.ok (Out.val f), st1) =>
                    match run n st1 (Task.callV f [v]) with
                    | (Res.ok (Out.val v2), st2) => run n st2 (Task.pipeStages v2 rest)
                    | (Res.ok _, st2) => (Res.err ErrKind.modelGap, st2)
                    | (r2, st2) => (r2, st2)
                | (Res.ok _, st1) => (Res.err ErrKind.modelGap, st1)
                | (r1, st1) => (r1, st1)
        | other =>
            match run n st (Task.expr other) with
            | (Res.ok (Out.val f), st1) =>
                match run n st1 (Task.callV f [v]) with
                | (Res.ok (Out.val v2), st2) => run n st2 (Task.pipeStages v2 rest)
                | (Res.ok _, st2) => (Res.err ErrKind.modelGap, st2)
                | (r2, st2) => (r2, st2)
            | (Res.ok _, st1) => (Res.err ErrKind.modelGap, st1)
            | (r1, st1) => (r1, st1)
    | Task.callStage v m args =>
      match tryGetMethod v m with
      | some pm =>
          match wrapHost (callPyMethod pm args) with
          | Res.ok v2 => (Res.ok (Out.val v2), st)
          | Res.err k => (Res.err k, st)
          | Res.signal sg => (Res.signal sg, st)
          | Res.timeout => (Res.timeout, st)
      | none =>
          match envGet st st.cur m with
          | some f =>
              match run n st (Task.callV f (args ++ [v])) with
              | (Res.err ErrKind.nameErr, st2) => (Res.err ErrKind.nameErr, st2)
              | (r2, st2) => (r2, st2)
          | none => (Res.err ErrKind.nameErr, st)
    | Task.caseList v cs =>
      match cs with
      | [] => (Res.ok (Out.val Value.vnone), st)
      | c :: rest =>
          match run n st (Task.matchP c.pat v) with
          | (Res.ok (Out.pat true binds), st1) =>
              match c.guard with
              | some g =>
                  match run n st1 (Task.guardT binds g) with
                  | (Res.ok (Out.val gv), st2) =>
                      if isTruthy gv then run n st2 (Task.caseBody binds c.body)
                      else run n st2 (Task.caseList v rest)
                  | (Res.ok _, st2) => (Res.err ErrKind.modelGap, st2)
                  | (r2, st2) => (r2, st2)
              | none => run n st1 (Task.caseBody binds c.body)
          | (Res.ok (Out.pat false _), st1) => run n st1 (Task.caseList v rest)
          | (Res.ok _, st1) => (Res.err ErrKind.modelGap, st1)
          | (r1, st1) => (r1, st1)
    | Task.matchP p v =>
      match p with
      | Pattern.wildcard => (Res.ok (Out.pat true []), st)
      | Pattern.plit c => (Res.ok (Out.pat (pyEq n (constV c) v) []), st)
      | Pattern.pbind name => (Res.ok (Out.pat true [(name, v)]), st)
      | Pattern.prange startE endE =>
          match run n st (Task.expr startE) with
          | (Res.ok (Out.val sv), st1) =>
              match run n st1 (Task.expr endE) with
              | (Res.ok (Out.val ev), st2) =>
                  match asNum v with
                  | some _ =>
                      match pyLeB sv v with
                      | Res.ok true =>
                          match pyLeB v ev with
                          | Res.ok b => (Res.ok (Out.pat b []), st2)
                          | Res.err k => (Res.err k, st2)
                          | Res.signal sg => (Res.signal sg, st2)
                          | Res.timeout => (Res.timeout, st2)
                      | Res.ok false => (Res.ok (Out.pat false []), st2)
                      | Res.err k => (Res.err k, st2)
                      | Res.signal sg => (Res.signal sg, st2)
                      | Res.timeout => (Res.timeout, st2)
                  | none => (Res.ok (Out.pat false []), st2)
              | (Res.ok _, st2) => (Res.err ErrKind.modelGap, st2)
              | (r2, st2) => (r2, st2)
          | (Res.ok _, st1) => (Res.err ErrKind.modelGap, st1)
          | (r1, st1) => (r1, st1)
      | Pattern.plist ps =>
          match v with
          | Value.vlist vs =>
              if ps.length = vs.length then run n st (Task.matchList [] ps vs)
              else (Res.ok (Out.pat false []), st)
          | _ => (Res.ok (Out.pat false []), st)
      | Pattern.pexpr e =>
          match run n st (Task.expr e) with
          | (Res.ok (Out.val pv), st1) => (Res.ok (Out.pat (pyEq n pv v) []), st1)
          | (Res.ok _, st1) => (Res.err ErrKind.modelGap, st1)
          | (Res.err _, st1) => (Res.ok (Out.pat false []), st1)
          | (Res.signal _, st1) => (Res.ok (Out.pat false []), st1)
          | (Res.timeout, st1) => (Res.timeout, st1)
    | Task.matchList acc ps vs =>
      match ps, vs with
      | [], [] => (Res.ok (Out.pat true acc), st)
      | p :: pr, w :: vr =>
          match run n st (Task.matchP p w) with
          | (Res.ok (Out.pat true binds), st1) =>
              run n st1 (Task.matchList (bindsUpdate acc binds) pr vr)
          | (Res.ok (Out.pat false _), st1) => (Res.ok (Out.pat false acc), st1)
          | (Res.ok _, st1) => (Res.err ErrKind.modelGap, st1)
          | (r1, st1) => (r1, st1)
      | _, _ => (Res.ok (Out.pat false acc), st)
    | Task.guardT binds g =>
      let p := newEnv st st.cur
      let st2 := defineAll p.1 p.2 binds
      match run n { st2 with cur := p.2 } (Task.expr g) with
      | (r, st4) => (r, { st4 with cur := st.cur })
    | Task.caseBody binds body =>
      let p := newEnv st st.cur
      let st2 := defineAll p.1 p.2 binds
      match run n { st2 with cur := p.2 } (Task.stmt body) with
      | (r, st4) => (r, { st4 with cur := st.cur })

end RiftSpec

namespace RiftSpec

/-- The seeded global scope of `GlobalEnvironment._setup_builtins`:
`yes`, `no`, `none` as immutable constants. The host built-in function
table installed by `Interpreter._setup_builtins` is not modelled (no
claim under study invokes a built-in); its absence only matters to name
lookups, and no theorem below looks one of those names up. -/
def initState : State :=
  { envs :=
      [⟨none,
        [("yes", Value.vbool true), ("no", Value.vbool false),
         ("none", Value.vnone)],
        ["yes", "no", "none"], ["yes", "no", "none"]⟩]
    funcs := []
    lams := []
    classes := []
    insts := []
    cur := 0 }

/-- `Interpreter.execute`: run the program statements in order; the result
is the last statement's value. -/
def runProgram (fuel : ℕ) (prog : List Stmt) : Res Out × State :=
  run fuel initState (Task.stmts Value.vnone prog)

end RiftSpec

namespace RiftSpec

/-- A member produced by the host accessor surface: either a plain value
(e.g. `length`) or a callable bound to the receiver. -/
inductive HostMember where
  | hval (v : Value)
  | hfn (recv : Value) (name : String)

/-- `Interpreter._get_list_method`: the host accessor surface on
sequences. `length` is a value; the rest are callables bound to the
receiver. -/
def getListMethod (xs : List Value) (m : String) : Option HostMember :=
  if m = "length" then some (HostMember.hval (Value.vint xs.length))
  else if m ∈ ["push", "pop", "shift", "unshift", "slice", "indexOf",
               "includes", "join", "reverse", "sort", "concat", "flat",
               "fill"] then
    some (HostMember.hfn (Value.vlist xs) m)
  else none

/-- `Interpreter._get_string_method`: the host accessor surface on text. -/
def getStringMethod (s : String) (m : String) : Option HostMember :=
  if m = "length" then some (HostMember.hval (Value.vint s.length))
  else if m ∈ ["upper", "lower", "trim", "split", "replace", "startsWith",
               "endsWith", "includes", "indexOf", "charAt", "substring",
               "repeat", "padStart", "padEnd"] then
    some (HostMember.hfn (Value.vstr s) m)
  else none

/-- Invoking a host accessor callable from the tables above. The pure
entries a theorem exercises are given their source semantics
(`'reverse': lambda: list(reversed(lst))`, etc.); the remaining entries
are outside the modelled fragment. -/
def callHostAccessor (recv : Value) (name : String) (args : List Value) :
    Res Value :=
  match recv, name, args with
  | Value.vlist xs, "reverse", [] => Res.ok (Value.vlist xs.reverse)
  | Value.vlist _, "push", [_] => Res.ok Value.vnone
  | Value.vlist xs, "includes", [x] =>
      Res.ok (Value.vbool (xs.any (fun y => vident 64 y x || pyEq 64 y x)))
  | Value.vstr s, "upper", [] => Res.ok (Value.vstr s.toUpper)
  | Value.vstr s, "lower", [] => Res.ok (Value.vstr s.toLower)
  | _, _, _ => Res.err ErrKind.modelGap

/-- Modelled from the spec (§4.4.5 and claim C2): the member lookup the
claim describes, "a callable member of the current value (host accessor
or instance method)" — the host accessor surface is exactly the
`_get_list_method`/`_get_string_method` tables above (the ones
`_eval_MemberAccess` consults). Value-valued members such as `length`
are not callable and do not satisfy the claim's clause. Instance-method
tables are not modelled (the compared input is a sequence). -/
def specMember (v : Value) (m : String) : Option HostMember :=
  match v with
  | Value.vlist xs =>
      match getListMethod xs m with
      | some (HostMember.hfn r nm) => some (HostMember.hfn r nm)
      | _ => none
  | Value.vstr s =>
      match getStringMethod s m with
      | some (HostMember.hfn r nm) => some (HostMember.hfn r nm)
      | _ => none
  | _ => none

/-- Modelled from the spec (§4.4.5 a-c and claim C2): resolution of a
call-shaped pipeline stage `m(args)` as the claim states it: first the
callable member of the piped value, invoked as `value.m(args)`; else the
function `m` in scope, invoked as `m(args..., value)`; else a Name
error. -/
def specCallStage (n : ℕ) (st : State) (v : Value) (m : String)
    (args : List Value) : Res Out × State :=
  match specMember v m with
  | some (HostMember.hfn recv nm) =>
      match wrapHost (callHostAccessor recv nm args) with
      | Res.ok v2 => (Res.ok (Out.val v2), st)
      | Res.err k => (Res.err k, st)
      | Res.signal sg => (Res.signal sg, st)
      | Res.timeout => (Res.timeout, st)
  | some (HostMember.hval _) => (Res.err ErrKind.modelGap, st)
  | none =>
      match envGet st st.cur m with
      | some f => run n st (Task.callV f (args ++ [v]))
      | none => (Res.err ErrKind.nameErr, st)

/-- Modelled from the spec (§4.4.3 and claim C4): parameter binding for a
user function as the claim states it, identical to `Task.bindFn` except
that a missing parameter's default expression is evaluated with the
function's captured scope as the current environment. -/
def bindFnSpecC4 (n : ℕ) (st : State) (eid closure : ℕ) :
    List Param → List Value → Res Out × State
  | [], _ => (Res.ok (Out.val Value.vnone), st)
  | p :: rest, args =>
      if p.rest then
        (Res.ok (Out.val Value.vnone),
         envDefine st eid p.name (Value.vlist args) false false)
      else
        match args with
        | a :: argsTl =>
            bindFnSpecC4 n (envDefine st eid p.name a false false) eid closure
              rest argsTl
        | [] =>
            match p.default with
            | some d =>
                match run n { st with cur := closure } (Task.expr d) with
                | (Res.ok (Out.val dv), st1) =>
                    bindFnSpecC4 n
                      (envDefine { st1 with cur := st.cur } eid p.name dv false false)
                      eid closure rest []
                | (Res.ok _, st1) => (Res.err ErrKind.modelGap, { st1 with cur := st.cur })
                | (r1, st1) => (r1, { st1 with cur := st.cur })
            | none =>
                bindFnSpecC4 n (envDefine st eid p.name Value.vnone false false)
                  eid closure rest []

/-- Modelled from the spec (§4.4.3 and claim C4): calling a user function
with defaults evaluated in the captured scope; everything after binding
is the code path of `Task.callFn` unchanged. -/
def callFnSpecC4 (n : ℕ) (st : State) (fid : ℕ) (args : List Value) :
    Res Out × State :=
  match st.funcs[fid]? with
  | none => (Res.err ErrKind.modelGap, st)
  | some fv =>
      let p := newEnv st fv.closure
      match bindFnSpecC4 n p.1 p.2 fv.closure fv.params args with
      | (Res.ok _, st1) =>
          let prevCur := st1.cur
          match run n { st1 with cur := p.2 } (Task.stmt fv.body) with
          | (Res.ok (Out.val v), st3) =>
              match lastExprStmt fv.body with
              | some le =>
                  match run n st3 (Task.expr le) with
                  | (Res.ok (Out.val v2), st4) =>
                      (Res.ok (Out.val v2), { st4 with cur := prevCur })
                  | (Res.signal (Sig.ret rv), st4) =>
                      (Res.ok (Out.val rv), { st4 with cur := prevCur })
                  | (r3, st4) => (r3, { st4 with cur := prevCur })
              | none => (Res.ok (Out.val v), { st3 with cur := prevCur })
          | (Res.ok _, st3) => (Res.err ErrKind.modelGap, { st3 with cur := prevCur })
          | (Res.signal (Sig.ret rv), st3) =>
              (Res.ok (Out.val rv), { st3 with cur := prevCur })
          | (r2, st3) => (r2, { st3 with cur := prevCur })
      | (rb, st1) => (rb, st1)

end RiftSpec

namespace RiftSpec

/-- Claim C1's failing program:
`conduit f() @ mut c = 0  c += 1 #` followed by `f()`. -/
def c1Prog : List Stmt :=
  [Stmt.funcDecl "f" []
     (Stmt.block
       [Stmt.varDecl "mut" "c" (some (Expr.lit (Const.cint 0))),
        Stmt.exprStmt (Expr.assign "+=" (Expr.ident "c") (Expr.lit (Const.cint 1)))]),
   Stmt.exprStmt (Expr.call (Expr.ident "f") [])]

/-- The body of `f` in `c1Prog`. -/
def c1Body : Stmt :=
  Stmt.block
    [Stmt.varDecl "mut" "c" (some (Expr.lit (Const.cint 0))),
     Stmt.exprStmt (Expr.assign "+=" (Expr.ident "c") (Expr.lit (Const.cint 1)))]

/-- The machine state a call of `f` in `c1Prog` reaches just before the
body runs: the global scope holds `f`, the call scope is its child. -/
def c1CallState : State :=
  { envs :=
      [⟨none,
        [("yes", Value.vbool true), ("no", Value.vbool false),
         ("none", Value.vnone), ("f", Value.vfunc 0)],
        ["f", "yes", "no", "none"], ["yes", "no", "none"]⟩,
       ⟨some 0, [], [], []⟩]
    funcs := [⟨"f", [], c1Body, 0⟩]
    lams := []
    classes := []
    insts := []
    cur := 1 }

/-- Claim C2's pipeline input: `~ 1, 2 ! -> reverse()`. -/
def c2PipeExpr : Expr :=
  Expr.pipeline (Expr.listE [Expr.lit (Const.cint 1), Expr.lit (Const.cint 2)])
    [Expr.call (Expr.ident "reverse") []]

/-- Claim C4's machine state: `f(p = a)` was declared where the immutable
`a` is `1` (the captured scope, environment 0); the call site (current
environment 1, a child scope) declares `a` as `2`. -/
def c4State : State :=
  { envs :=
      [⟨none, [("a", Value.vint 1), ("f", Value.vfunc 0)], ["a", "f"], []⟩,
       ⟨some 0, [("a", Value.vint 2)], ["a"], []⟩]
    funcs :=
      [⟨"f", [Param.mk "p" (some (Expr.ident "a")) false],
        Stmt.block [Stmt.giveStmt (some (Expr.ident "p"))], 0⟩]
    lams := []
    classes := []
    insts := []
    cur := 1 }

/-- Claim C4's lambda fixture: the same machine state, with the lambda
`(q = a) => @ give q #` captured in the global scope (environment 0) in
the lambda table. -/
def c4LamState : State :=
  { c4State with
    lams :=
      [⟨[Param.mk "q" (some (Expr.ident "a")) false],
        Stmt.block [Stmt.giveStmt (some (Expr.ident "q"))], 0⟩] }

/-- The huge-but-finite double `1e308` (idealised as the exact power of
ten; the host stores the nearest double, which is equally finite). -/
def qTen308 : QV :=
  ⟨100000000000000000000000000000000000000000000000000000000000000000000000000000000000000000000000000000000000000000000000000000000000000000000000000000000000000000000000000000000000000000000000000000000000000000000000000000000000000000000000000000000000000000000000000000000000000000000000000000000000000000000, 1⟩

/-- `1e308 * 10 - 1e308 * 10`: multiplication overflows to `inf`, the
subtraction of infinities yields NaN. -/
def c6NanExpr : Expr :=
  Expr.binop "-"
    (Expr.binop "*" (Expr.lit (Const.cfloat (FloatV.finite qTen308)))
      (Expr.lit (Const.cint 10)))
    (Expr.binop "*" (Expr.lit (Const.cfloat (FloatV.finite qTen308)))
      (Expr.lit (Const.cint 10)))

/-- Claim C6's program: `let x = 1e308 * 10 - 1e308 * 10` then `x == x`. -/
def c6Prog : List Stmt :=
  [Stmt.varDecl "let" "x" (some c6NanExpr),
   Stmt.exprStmt (Expr.binop "==" (Expr.ident "x") (Expr.ident "x"))]

/-- A `check`-style map-key distinctness condition: the top-level map (if
any) of the value has pairwise unidentical, unequal keys — which every
host dict satisfies, keys being deduplicated by hash and equality. -/
def mapKeysOK : Value → Prop
  | Value.vmap es =>
      es.Pairwise (fun x y =>
        (∀ k, vident k x.1 y.1 = false) ∧ (∀ k, pyEq k x.1 y.1 = false))
  | _ => True

/-- Claim C3's witness statement: `try @ give 7 # catch e @ 0 #`. -/
def c3TryW : Stmt :=
  Stmt.tryStmt (Stmt.block [Stmt.giveStmt (some (Expr.lit (Const.cint 7)))])
    (some "e") (some (Stmt.block [Stmt.exprStmt (Expr.lit (Const.cint 0))])) none

/-- Claim C10's fixture: class `A` with constructor body `give 42`. -/
def c10GiveState : State :=
  { initState with
    classes :=
      [⟨"A", [], [],
        some (Stmt.block [Stmt.giveStmt (some (Expr.lit (Const.cint 42)))])⟩] }

/-- Claim C10's second fixture: class `B` whose constructor body ends in
the expression statement `99`. -/
def c10ExprState : State :=
  { initState with
    classes :=
      [⟨"B", [], [],
        some (Stmt.block [Stmt.exprStmt (Expr.lit (Const.cint 99))])⟩] }

end RiftSpec

namespace RiftSpec

/-- Build a runtime value from a number. -/
def numToVal : NumV → Value
  | NumV.int i => Value.vint i
  | NumV.float f => Value.vfloat f

/-- The element list a host `range(a, stop)` object denotes, i.e. what
`list(iterable)` materialises it to in `_eval_RepeatStatement`. -/
def rangeElems (a stop : ℤ) : List ℤ :=
  (List.range (stop - a).toNat).map (fun (k : ℕ) => a + (k : ℤ))

/-- One `check` case fails at the stated fuel: its pattern does not
match, or the pattern matches and the guard evaluates to a falsy value.
The fuel indexing mirrors `run`'s own stepping. -/
inductive CaseFails : ℕ → State → Value → CaseC → State → Prop where
  | noMatch (n : ℕ) (st : State) (v : Value) (pat : Pattern)
      (g : Option Expr) (b : Stmt) (bs : List (String × Value)) (st1 : State) :
      run n st (Task.matchP pat v) = (Res.ok (Out.pat false bs), st1) →
      CaseFails n st v (CaseC.mk pat g b) st1
  | guardFalsy (n : ℕ) (st : State) (v : Value) (pat : Pattern) (g : Expr)
      (b : Stmt) (binds : List (String × Value)) (gv : Value) (st1 st2 : State) :
      run n st (Task.matchP pat v) = (Res.ok (Out.pat true binds), st1) →
      run n st1 (Task.guardT binds g) = (Res.ok (Out.val gv), st2) →
      isTruthy gv = false →
      CaseFails n st v (CaseC.mk pat (some g) b) st2

/-- Every case of a `check` fails in order, threading the machine state
and `run`'s fuel stepping. -/
inductive AllFail : ℕ → State → Value → List CaseC → State → Prop where
  | nil (n : ℕ) (st : State) (v : Value) : AllFail (n + 1) st v [] st
  | cons (n : ℕ) (st : State) (v : Value) (c : CaseC) (st1 : State)
      (cs : List CaseC) (st2 : State) :
      CaseFails n st v c st1 → AllFail n st1 v cs st2 →
      AllFail (n + 1) st v (c :: cs) st2

/-- No parameter of the list is a rest parameter. -/
def noRest (ps : List Param) : Prop := ∀ p ∈ ps, p.rest = false

/-- Witness fixture: a global scope that also binds the user function
`conduit add(x, y) @ give x + y #`. -/
def c2FnState : State :=
  { envs :=
      [⟨none,
        [("yes", Value.vbool true), ("no", Value.vbool false),
         ("none", Value.vnone), ("add", Value.vfunc 0)],
        ["add", "yes", "no", "none"], ["yes", "no", "none"]⟩]
    funcs :=
      [⟨"add", [Param.mk "x" none false, Param.mk "y" none false],
        Stmt.block
          [Stmt.giveStmt (some (Expr.binop "+" (Expr.ident "x") (Expr.ident "y")))],
        0⟩]
    lams := []
    classes := []
    insts := []
    cur := 0 }

/-- Witness fixture: the global scope right after `let x = 1`. -/
def c5WState : State := envDefine initState 0 "x" (Value.vint 1) false false

/-- Witness fixture for reflexive equality: a two-entry map with keys of
different kinds. -/
def c6WVal : Value :=
  Value.vmap [(Value.vint 2, Value.vint 1), (Value.vbool true, Value.vnone)]

/-- Witness fixture for `check`: the cases `1 => 10`, `2 => 20`,
`_ => 30`. -/
def c7Cases : List CaseC :=
  [CaseC.mk (Pattern.plit (Const.cint 1)) none (Stmt.exprStmt (Expr.lit (Const.cint 10))),
   CaseC.mk (Pattern.plit (Const.cint 2)) none (Stmt.exprStmt (Expr.lit (Const.cint 20))),
   CaseC.mk Pattern.wildcard none (Stmt.exprStmt (Expr.lit (Const.cint 30)))]

/-- Witness fixture for `check` with no matching case: `1 => 10`,
`2 => 20` scrutinised with `7`. -/
def c7FailCases : List CaseC :=
  [CaseC.mk (Pattern.plit (Const.cint 1)) none (Stmt.exprStmt (Expr.lit (Const.cint 10))),
   CaseC.mk (Pattern.plit (Const.cint 2)) none (Stmt.exprStmt (Expr.lit (Const.cint 20)))]

end RiftSpec

namespace RiftSpec

/-- Claim C1. The claim states that a user-function call whose body
completes without a `Return` signal yields the value of the body's last
expression statement, evaluated exactly once. The code (`_call_function`,
lines 916-923) evaluates the whole body and then evaluates the last
expression statement a second time. At the failing input
`conduit f() @ mut c = 0  c += 1 #` the call `f()` returns `2`: the
program's result is `2`, a direct call of `f` from its call state
returns `2`, while a single evaluation of the body yields `1`. -/
theorem c1_autoreturn_double_evaluation :
    (runProgram 20 c1Prog).fst = Res.ok (Out.val (Value.vint 2)) ∧
    (run 18 c1CallState (Task.callFn 0 [])).fst = Res.ok (Out.val (Value.vint 2)) ∧
    (run 18 c1CallState (Task.stmt c1Body)).fst = Res.ok (Out.val (Value.vint 1)) :=
  ⟨rfl, rfl, rfl⟩

/-- Claim C3. A Return/Break/Continue/Yield signal raised while
evaluating a try-block is never intercepted by the catch block: with no
finally block it propagates out of the try statement unchanged, whether
or not a catch block is present, and with a finally block that completes
normally it propagates unchanged after the finally block runs. -/
theorem c3_signals_bypass_catch (n : ℕ) (st st1 : State) (tb : Stmt)
    (cv : Option String) (cb : Option Stmt) (s : Sig)
    (h : run n st (Task.stmt tb) = (Res.signal s, st1)) :
    run (n + 1) st (Task.stmt (Stmt.tryStmt tb cv cb none)) = (Res.signal s, st1) ∧
    (∀ (f : Stmt) (v : Out) (st2 : State),
      run n st1 (Task.stmt f) = (Res.ok v, st2) →
      run (n + 1) st (Task.stmt (Stmt.tryStmt tb cv cb (some f))) = (Res.signal s, st2)) := by
  constructor
  · simp only [run, h]
  · intro f v st2 hf
    simp only [run, h, hf]

/-- Claim C3 witness: `try @ give 7 # catch e @ 0 #` propagates the
Return signal carrying `7` past the catch block. -/
theorem c3_signals_bypass_catch_witness :
    run 6 initState (Task.stmt c3TryW) = (Res.signal (Sig.ret (Value.vint 7)), initState) :=
  (c3_signals_bypass_catch 5 initState initState
    (Stmt.block [Stmt.giveStmt (some (Expr.lit (Const.cint 7)))])
    (some "e") (some (Stmt.block [Stmt.exprStmt (Expr.lit (Const.cint 0))]))
    (Sig.ret (Value.vint 7)) rfl).1

end RiftSpec

namespace RiftSpec

/-- Helper: when name resolution reaches a scope whose binding is marked
constant or immutable, `Environment.set` raises `AssignmentError` before
any mutation, leaving the whole state untouched. -/
theorem envSetF_immutable_err (fuel : ℕ) :
    ∀ (st : State) (eid : ℕ) (name : String) (v : Value) (h : ℕ) (e : EnvD),
      resolveF fuel st eid name = some h →
      st.envs[h]? = some e →
      (name ∈ e.constants ∨ name ∈ e.immutables) →
      envSetF fuel st eid name v = (SetRes.assignErr, st) := by
  induction fuel with
  | zero =>
      intro st eid name v h e hres henv hflag
      simp [resolveF] at hres
  | succ fuel ih =>
      intro st eid name v h e hres henv hflag
      simp only [resolveF] at hres
      simp only [envSetF]
      cases henvs : st.envs[eid]? with
      | none => rw [henvs] at hres; exact absurd hres (by simp)
      | some e2 =>
          rw [henvs] at hres
          by_cases hhas : alHas e2.vars name
          · simp only [hhas, if_true] at hres
            have heid : h = eid := by
              have := hres
              simp at this
              omega
            subst heid
            rw [henv] at henvs
            have he : e2 = e := by
              injection henvs with hh
              exact hh.symm
            subst he
            by_cases hc : name ∈ e2.constants
            · simp [hhas, hc]
            · have him : name ∈ e2.immutables := by
                rcases hflag with hf | hf
                · exact absurd hf hc
                · exact hf
              simp [hhas, hc, him]
          · simp only [hhas, if_false] at hres
            cases hpar : e2.parent with
            | none => rw [hpar] at hres; exact absurd hres (by simp)
            | some p =>
                rw [hpar] at hres
                simp [hhas, hpar, ih st p name v h e hres henv hflag]

/-- Claim C5. A write through `Environment.set` to a name whose nearest
binding is declared immutable (`let`) or constant (`const`) fails with
an Assign error and leaves the entire state, hence the binding's value,
unchanged; and at the assignment-expression level, once the right-hand
side has evaluated, the assignment raises the Assign error and leaves
the post-evaluation state (hence the binding) unchanged. -/
theorem c5_immutable_assignment_rejected :
    (∀ (fuel : ℕ) (st : State) (eid : ℕ) (name : String) (v : Value)
       (h : ℕ) (e : EnvD),
      resolveF fuel st eid name = some h →
      st.envs[h]? = some e →
      (name ∈ e.constants ∨ name ∈ e.immutables) →
      envSetF fuel st eid name v = (SetRes.assignErr, st)) ∧
    (∀ (n : ℕ) (st st1 : State) (name : String) (rhs : Expr) (v : Value)
       (h : ℕ) (e : EnvD),
      run n st (Task.expr rhs) = (Res.ok (Out.val v), st1) →
      resolveF (st1.envs.length + 1) st1 st1.cur name = some h →
      st1.envs[h]? = some e →
      (name ∈ e.constants ∨ name ∈ e.immutables) →
      run (n + 1) st (Task.expr (Expr.assign "=" (Expr.ident name) rhs)) =
        (Res.err ErrKind.assignErr, st1)) := by
  constructor
  · exact envSetF_immutable_err
  · intro n st st1 name rhs v h e hrhs hres henv hflag
    have hset := envSetF_immutable_err (st1.envs.length + 1) st1 st1.cur
      name v h e hres henv hflag
    simp only [run, hrhs, assignTarget, envSet, hset]
    simp

/-- Claim C5 witness: after `let x = 1`, writing `x = 2` fails with the
Assign error and leaves the state unchanged, at both levels. -/
theorem c5_immutable_assignment_rejected_witness :
    envSetF (c5WState.envs.length + 1) c5WState 0 "x" (Value.vint 2) =
      (SetRes.assignErr, c5WState) ∧
    run 3 c5WState
      (Task.expr (Expr.assign "=" (Expr.ident "x") (Expr.lit (Const.cint 2)))) =
      (Res.err ErrKind.assignErr, c5WState) := by
  constructor
  · exact c5_immutable_assignment_rejected.1 (c5WState.envs.length + 1) c5WState 0
      "x" (Value.vint 2) 0 (c5WState.envs.get ⟨0, by decide⟩) rfl rfl
      (Or.inr (by decide))
  · exact c5_immutable_assignment_rejected.2 2 c5WState c5WState "x"
      (Expr.lit (Const.cint 2)) (Value.vint 2) 0
      (c5WState.envs.get ⟨0, by decide⟩) rfl rfl rfl (Or.inr (by decide))

end RiftSpec

namespace RiftSpec

/-- Helper: a failing case steps the evaluator to the remaining cases. -/
theorem caseFails_step (n : ℕ) (st : State) (v : Value) (c : CaseC)
    (st1 : State) (rest : List CaseC) (h : CaseFails n st v c st1) :
    run (n + 1) st (Task.caseList v (c :: rest)) = run n st1 (Task.caseList v rest) := by
  cases h with
  | noMatch pat g b bs stx hm =>
      simp only [run, CaseC.pat, hm]
  | guardFalsy pat g b binds gv stx sty h1 h2 h3 =>
      simp only [run, CaseC.pat, CaseC.guard, h1, h2, h3]
      simp [h1, h2, h3]

/-- Helper: when every case fails, the `check` result is none. -/
theorem allFail_none (n : ℕ) (st : State) (v : Value) (cs : List CaseC)
    (st2 : State) (h : AllFail n st v cs st2) :
    run n st (Task.caseList v cs) = (Res.ok (Out.val Value.vnone), st2) := by
  induction h with
  | nil n st v => simp only [run]
  | cons n st v c st1 cs st2 hc hrest ih =>
      rw [caseFails_step n st v c st1 cs hc]
      exact ih

/-- Claim C7. For a `check` statement: the scrutinee is evaluated once
and the statement's result is that of trying the cases in order against
that single value (1); an empty case list yields none (2); the first
case whose pattern matches and whose guard is absent (3) or truthy (4)
supplies the result by running its body under the binding-extended
scope, with the remaining cases never consulted (they do not occur in
the right-hand sides); a failing case passes control to the remaining
cases (5); and when every case fails the result is none (6). -/
theorem c7_check_first_match :
    (∀ (n : ℕ) (st st1 : State) (scrut : Expr) (cases : List CaseC) (v : Value),
      run n st (Task.expr scrut) = (Res.ok (Out.val v), st1) →
      run (n + 1) st (Task.stmt (Stmt.checkStmt scrut cases)) =
        run n st1 (Task.caseList v cases)) ∧
    (∀ (n : ℕ) (st : State) (v : Value),
      run (n + 1) st (Task.caseList v []) = (Res.ok (Out.val Value.vnone), st)) ∧
    (∀ (n : ℕ) (st st1 : State) (v : Value) (pat : Pattern) (b : Stmt)
       (binds : List (String × Value)) (rest : List CaseC),
      run n st (Task.matchP pat v) = (Res.ok (Out.pat true binds), st1) →
      run (n + 1) st (Task.caseList v (CaseC.mk pat none b :: rest)) =
        run n st1 (Task.caseBody binds b)) ∧
    (∀ (n : ℕ) (st st1 st2 : State) (v gv : Value) (pat : Pattern) (g : Expr)
       (b : Stmt) (binds : List (String × Value)) (rest : List CaseC),
      run n st (Task.matchP pat v) = (Res.ok (Out.pat true binds), st1) →
      run n st1 (Task.guardT binds g) = (Res.ok (Out.val gv), st2) →
      isTruthy gv = true →
      run (n + 1) st (Task.caseList v (CaseC.mk pat (some g) b :: rest)) =
        run n st2 (Task.caseBody binds b)) ∧
    (∀ (n : ℕ) (st st1 : State) (v : Value) (c : CaseC) (rest : List CaseC),
      CaseFails n st v c st1 →
      run (n + 1) st (Task.caseList v (c :: rest)) =
        run n st1 (Task.caseList v rest)) ∧
    (∀ (n : ℕ) (st st2 : State) (v : Value) (cs : List CaseC),
      AllFail n st v cs st2 →
      run n st (Task.caseList v cs) = (Res.ok (Out.val Value.vnone), st2)) := by
  refine ⟨?_, ?_, ?_, ?_, ?_, ?_⟩
  · intro n st st1 scrut cases v h
    simp only [run, h]
  · intro n st v
    simp only [run]
  · intro n st st1 v pat b binds rest hm
    simp only [run, CaseC.pat, CaseC.guard, CaseC.body, hm]
  · intro n st st1 st2 v gv pat g b binds rest hm hg htruthy
    simp only [run, CaseC.pat, CaseC.guard, CaseC.body, hm, hg, htruthy]
    simp
  · intro n st st1 v c rest h
    exact caseFails_step n st v c st1 rest h
  · intro n st st2 v cs h
    exact allFail_none n st v cs st2 h

/-- Claim C7 witness: scrutinising `2` against `1 => 10; 2 => 20; _ => 30`
runs the second case's body (result `20`), and scrutinising `7` against
`1 => 10; 2 => 20` matches nothing (result none). -/
theorem c7_check_first_match_witness :
    (run 6 initState (Task.stmt (Stmt.checkStmt (Expr.lit (Const.cint 2)) c7Cases))).fst =
      Res.ok (Out.val (Value.vint 20)) ∧
    run 4 initState (Task.caseList (Value.vint 7) c7FailCases) =
      (Res.ok (Out.val Value.vnone), initState) := by
  constructor
  · have h1 := c7_check_first_match.1 5 initState initState
      (Expr.lit (Const.cint 2)) c7Cases (Value.vint 2) rfl
    have h2 := c7_check_first_match.2.2.2.2.1 4 initState initState
      (Value.vint 2)
      (CaseC.mk (Pattern.plit (Const.cint 1)) none
        (Stmt.exprStmt (Expr.lit (Const.cint 10)))) (c7Cases.drop 1)
      (CaseFails.noMatch 4 initState (Value.vint 2) (Pattern.plit (Const.cint 1))
        none (Stmt.exprStmt (Expr.lit (Const.cint 10))) [] initState rfl)
    have h3 := c7_check_first_match.2.2.1 3 initState initState (Value.vint 2)
      (Pattern.plit (Const.cint 2)) (Stmt.exprStmt (Expr.lit (Const.cint 20)))
      [] (c7Cases.drop 2) rfl
    rw [show (6 : ℕ) = 5 + 1 from rfl, h1]
    rw [show c7Cases = CaseC.mk (Pattern.plit (Const.cint 1)) none
      (Stmt.exprStmt (Expr.lit (Const.cint 10))) :: c7Cases.drop 1 from rfl]
    rw [show (5 : ℕ) = 4 + 1 from rfl, h2]
    rw [show c7Cases.drop 1 = CaseC.mk (Pattern.plit (Const.cint 2)) none
      (Stmt.exprStmt (Expr.lit (Const.cint 20))) :: c7Cases.drop 2 from rfl]
    rw [show (4 : ℕ) = 3 + 1 from rfl, h3]
    rfl
  · exact c7_check_first_match.2.2.2.2.2 4 initState initState (Value.vint 7)
      c7FailCases
      (AllFail.cons 3 initState (Value.vint 7)
        (CaseC.mk (Pattern.plit (Const.cint 1)) none
          (Stmt.exprStmt (Expr.lit (Const.cint 10)))) initState
        (c7FailCases.drop 1) initState
        (CaseFails.noMatch 3 initState (Value.vint 7) (Pattern.plit (Const.cint 1))
          none (Stmt.exprStmt (Expr.lit (Const.cint 10))) [] initState rfl)
        (AllFail.cons 2 initState (Value.vint 7)
          (CaseC.mk (Pattern.plit (Const.cint 2)) none
            (Stmt.exprStmt (Expr.lit (Const.cint 20)))) initState [] initState
          (CaseFails.noMatch 2 initState (Value.vint 7) (Pattern.plit (Const.cint 2))
            none (Stmt.exprStmt (Expr.lit (Const.cint 20))) [] initState rfl)
          (AllFail.nil 1 initState (Value.vint 7))))

end RiftSpec

namespace RiftSpec

/-- Claim C8. For integer bounds, both `a..b` and `a to b` parse to the
same inclusive Range node (`mkRangeNode`), which evaluates to the host
range object `range(a, b+1)`; that object denotes the integer sequence
of length `(b+1-a)⁺` whose k-th element is `a+k` — the integers from `a`
through `b` inclusive — and it is empty exactly when `a > b`. -/
theorem c8_inclusive_range (a b : ℤ) :
    (∀ (n : ℕ) (st : State),
      run (n + 2) st
        (Task.expr (mkRangeNode (Expr.lit (Const.cint a)) (Expr.lit (Const.cint b)))) =
        (Res.ok (Out.val (Value.vrange a (b + 1))), st)) ∧
    (rangeElems a (b + 1)).length = (b + 1 - a).toNat ∧
    (∀ (k : ℕ) (hk : k < (rangeElems a (b + 1)).length),
      (rangeElems a (b + 1))[k] = a + k) ∧
    (a > b → rangeElems a (b + 1) = []) ∧
    (a ≤ b → ((rangeElems a (b + 1)).length : ℤ) = b - a + 1) := by
  refine ⟨?_, ?_, ?_, ?_, ?_⟩
  · intro n st
    simp only [mkRangeNode, run, constV, asRangeInt]
    simp
  · rw [rangeElems, List.length_map, List.length_range]
  · intro k hk
    simp only [rangeElems, List.getElem_map, List.getElem_range]
  · intro hab
    rw [rangeElems]
    have h0 : (b + 1 - a).toNat = 0 := by omega
    rw [h0]
    rfl
  · intro hab
    rw [rangeElems, List.length_map, List.length_range]
    omega

/-- Claim C8 witness: `3..5` evaluates to `range(3, 6)`, denoting
`[3, 4, 5]`, and `5..3` denotes the empty sequence. -/
theorem c8_inclusive_range_witness :
    run 5 initState
      (Task.expr (mkRangeNode (Expr.lit (Const.cint 3)) (Expr.lit (Const.cint 5)))) =
      (Res.ok (Out.val (Value.vrange 3 6)), initState) ∧
    rangeElems 3 6 = [3, 4, 5] ∧
    rangeElems 5 4 = [] := by
  refine ⟨(c8_inclusive_range 3 5).1 3 initState, by decide, ?_⟩
  exact (c8_inclusive_range 5 3).2.2.2.1 (by norm_num)

end RiftSpec

namespace RiftSpec

/-- Claim C9. For the binary division operator on numeric operands: the
evaluator's `right == 0` test is exactly numeric equality of the right
operand with zero; when the right operand equals zero the evaluation
fails with the division-by-zero error; and when it does not, no
division-by-zero error is raised and the quotient (Python true division,
always a float) is returned. -/
theorem c9_division_by_zero (n : ℕ) (l r : Value) (nl nr : NumV)
    (hl : asNum l = some nl) (hr : asNum r = some nr) :
    pyEq (n + 1) r (Value.vint 0) = numEq nr (NumV.int 0) ∧
    (numEq nr (NumV.int 0) = true →
      evalBinOpVal (n + 1) "/" l r = Res.err ErrKind.divZeroErr) ∧
    (numEq nr (NumV.int 0) = false →
      evalBinOpVal (n + 1) "/" l r = Res.ok (numToVal (numDiv nl nr))) := by
  have h0 : pyEq (n + 1) r (Value.vint 0) = numEq nr (NumV.int 0) := by
    simp only [pyEq, pyEqT, hr]
    rfl
  refine ⟨h0, ?_, ?_⟩
  · intro hz
    simp only [evalBinOpVal, h0, hz]
    norm_num
    rw [if_neg (by decide : ¬("/" : String) = "+"),
      if_neg (by decide : ¬("/" : String) = "-"),
      if_neg (by decide : ¬("/" : String) = "*")]
  · intro hz
    have hstr : isStrV l = false := by
      cases l <;> simp_all [asNum, isStrV]
    simp only [evalBinOpVal, h0, hz]
    simp only [pyDivRaw, hl, hr, hz]
    cases hd : numDiv nl nr <;> simp [numToVal, hstr]

/-- Claim C9 witness: `10 / 4` yields the float `10/4` and `1 / 0` (and
`1 / no`, the boolean false being numerically zero) fails with the
division-by-zero error. -/
theorem c9_division_by_zero_witness :
    evalBinOpVal 6 "/" (Value.vint 10) (Value.vint 4) =
      Res.ok (Value.vfloat (FloatV.finite ⟨10, 4⟩)) ∧
    evalBinOpVal 6 "/" (Value.vint 1) (Value.vint 0) = Res.err ErrKind.divZeroErr ∧
    evalBinOpVal 6 "/" (Value.vint 1) (Value.vbool false) = Res.err ErrKind.divZeroErr := by
  refine ⟨?_, ?_, ?_⟩
  · have h := (c9_division_by_zero 5 (Value.vint 10) (Value.vint 4)
      (NumV.int 10) (NumV.int 4) rfl rfl).2.2 (by decide)
    rw [h]
    rfl
  · exact (c9_division_by_zero 5 (Value.vint 1) (Value.vint 0)
      (NumV.int 1) (NumV.int 0) rfl rfl).2.1 (by decide)
  · exact (c9_division_by_zero 5 (Value.vint 1) (Value.vbool false)
      (NumV.int 1) (NumV.int 0) rfl rfl).2.1 (by decide)

end RiftSpec

namespace RiftSpec

/-- Claim C10. Whenever calling a class value completes with a value,
that value is the newly created instance (the fresh entry appended to
the instance table) — in particular a Return signal from the constructor
body is absorbed and neither an explicit `give` value nor the body's
last expression replaces the instance: concretely, a constructor body
`give 42` and a constructor body ending in the expression `99` both
yield the instance. -/
theorem c10_class_call_returns_instance :
    (∀ (n : ℕ) (st : State) (cid : ℕ) (args : List Value) (v : Value),
      (run n st (Task.instCls cid args)).fst = Res.ok (Out.val v) →
      v = Value.vinst st.insts.length) ∧
    (run 8 c10GiveState (Task.instCls 0 [])).fst = Res.ok (Out.val (Value.vinst 0)) ∧
    (run 8 c10ExprState (Task.instCls 0 [])).fst = Res.ok (Out.val (Value.vinst 0)) := by
  refine ⟨?_, rfl, rfl⟩
  intro n st cid args v h
  match n with
  | 0 => simp [run] at h
  | Nat.succ n =>
    simp only [run] at h
    split at h
    · simp at h
    · split at h
      · simp at h
        exact h.symm
      · split at h
        · split at h
          · simp at h
            exact h.symm
          · simp at h
            exact h.symm
          · rename_i hno hnr heq
            simp at h
            exact absurd h (hno _)
        · rename_i hno heq
          simp at h
          exact absurd h (hno _)

/-- Claim C10 witness: at the `give 42` constructor the call result is a
value, and by the theorem that value is the new instance. -/
theorem c10_class_call_returns_instance_witness :
    (run 8 c10GiveState (Task.instCls 0 [])).fst =
      Res.ok (Out.val (Value.vinst 0)) ∧
    Value.vinst 0 = Value.vinst c10GiveState.insts.length :=
  ⟨c10_class_call_returns_instance.2.1,
   c10_class_call_returns_instance.1 8 c10GiveState 0 [] (Value.vinst 0)
     c10_class_call_returns_instance.2.1⟩

end RiftSpec

namespace RiftSpec

/-- Claim C2 counterexample. At the pipeline `~ 1, 2 ! -> reverse()` the
claim's resolution (member lookup through the host accessor surface,
`specCallStage`) yields the reversed sequence `[2, 1]`, but the code
(`_try_get_method`, which consults the host object's Python attributes
and so finds the in-place `list.reverse` returning `None`) yields none —
so the stage is not invoked as the claim's `value.m(args)`. -/
theorem c2_pipeline_member_lookup_counterexample :
    (run 12 initState (Task.expr c2PipeExpr)).fst = Res.ok (Out.val Value.vnone) ∧
    (specCallStage 12 initState (Value.vlist [Value.vint 1, Value.vint 2])
        "reverse" []).fst =
      Res.ok (Out.val (Value.vlist [Value.vint 2, Value.vint 1])) ∧
    Value.vnone ≠ Value.vlist [Value.vint 2, Value.vint 1] :=
  ⟨rfl, rfl, by simp⟩

/-- Claim C2 as amended. For a call-shaped pipeline stage `m(args)` with
`m` a bare identifier: the member lookup consults the Python attribute
surface of the host object behind the piped value (`tryGetMethod`), not
the host accessor tables; if such an attribute exists the stage is the
host attribute call with its result (value or error) taken as is; if
not, `m` is looked up as a function in scope and invoked with the piped
value appended as the last argument; and if that lookup also fails the
stage fails with a Name error. -/
theorem c2_pipeline_member_lookup_amended (n : ℕ) (st : State) (v : Value)
    (m : String) (args : List Value) :
    (∀ pm, tryGetMethod v m = some pm →
      (∀ v2, wrapHost (callPyMethod pm args) = Res.ok v2 →
        run (n + 1) st (Task.callStage v m args) = (Res.ok (Out.val v2), st)) ∧
      (∀ k, wrapHost (callPyMethod pm args) = Res.err k →
        run (n + 1) st (Task.callStage v m args) = (Res.err k, st))) ∧
    (tryGetMethod v m = none → ∀ f, envGet st st.cur m = some f →
      run (n + 1) st (Task.callStage v m args) =
        run n st (Task.callV f (args ++ [v]))) ∧
    (tryGetMethod v m = none → envGet st st.cur m = none →
      run (n + 1) st (Task.callStage v m args) = (Res.err ErrKind.nameErr, st)) := by
  refine ⟨?_, ?_, ?_⟩
  · intro pm hpm
    constructor
    · intro v2 hok
      simp only [run, hpm, hok]
    · intro k herr
      simp only [run, hpm, herr]
  · intro hnone f hf
    rcases hx : run n st (Task.callV f (args ++ [v])) with ⟨r, st2⟩
    simp only [run, hnone, hf, hx]
    rcases r with a | k | s | _
    · rfl
    · cases k <;> rfl
    · rfl
    · rfl
  · intro hnone hf
    simp only [run, hnone, hf]

/-- Claim C2 amended witness: `reverse` resolves to the Python list
attribute (result none); `add` is not an attribute of an integer and
falls back to the scope function with the piped value last; `nosuch`
resolves to neither and fails with the Name error. -/
theorem c2_pipeline_member_lookup_amended_witness :
    run 13 initState
      (Task.callStage (Value.vlist [Value.vint 1, Value.vint 2]) "reverse" []) =
      (Res.ok (Out.val Value.vnone), initState) ∧
    run 13 c2FnState (Task.callStage (Value.vint 10) "add" [Value.vint 1]) =
      run 12 c2FnState (Task.callV (Value.vfunc 0) ([Value.vint 1] ++ [Value.vint 10])) ∧
    run 13 initState (Task.callStage (Value.vint 10) "nosuch" [Value.vint 1]) =
      (Res.err ErrKind.nameErr, initState) :=
  ⟨((c2_pipeline_member_lookup_amended 12 initState
      (Value.vlist [Value.vint 1, Value.vint 2]) "reverse" []).1
      ⟨Value.vlist [Value.vint 1, Value.vint 2], "reverse"⟩ rfl).1 Value.vnone rfl,
   (c2_pipeline_member_lookup_amended 12 c2FnState (Value.vint 10) "add"
      [Value.vint 1]).2.1 rfl (Value.vfunc 0) rfl,
   (c2_pipeline_member_lookup_amended 12 initState (Value.vint 10) "nosuch"
      [Value.vint 1]).2.2 rfl rfl⟩

end RiftSpec

namespace RiftSpec

/-- Claim C4 counterexample. For `f(p = a)` declared where the captured
scope binds `a = 1`, called from a scope binding `a = 2`: the code
(`_call_function`, which evaluates defaults before switching
`current_env`) binds `p = 2` and returns `2`, while the claim's
captured-scope evaluation (`callFnSpecC4`) returns `1`. -/
theorem c4_default_scope_counterexample :
    (run 10 c4State (Task.callFn 0 [])).fst = Res.ok (Out.val (Value.vint 2)) ∧
    (callFnSpecC4 10 c4State 0 []).fst = Res.ok (Out.val (Value.vint 1)) ∧
    Value.vint 2 ≠ Value.vint 1 :=
  ⟨rfl, rfl, by simp⟩

/-- Claim C4 as amended. For user-function parameter binding: extra
arguments past a parameter list without a rest parameter are discarded
(at the binding level and for the whole call); a missing parameter with
no default binds none; and a missing parameter's default expression is
evaluated in the calling environment — universally, the function
binding step runs the default in the unchanged machine state, whose
current environment is the caller's, while the lambda binding step runs
the default with the current environment switched to the new call scope
and restored afterwards; concretely, the `c4State` function call binds
the call-site `a = 2` where the same default on the `c4LamState` lambda
binds the captured `a = 1`. -/
theorem c4_parameter_binding_amended :
    (∀ (ps : List Param) (n : ℕ) (st : State) (eid : ℕ) (args extra : List Value),
      noRest ps → ps.length ≤ args.length →
      run n st (Task.bindFn eid ps (args ++ extra)) =
        run n st (Task.bindFn eid ps args)) ∧
    (∀ (n : ℕ) (st : State) (fid : ℕ) (args extra : List Value) (fv : FuncV),
      st.funcs[fid]? = some fv → noRest fv.params →
      fv.params.length ≤ args.length →
      run (n + 1) st (Task.callFn fid (args ++ extra)) =
        run (n + 1) st (Task.callFn fid args)) ∧
    (∀ (n : ℕ) (st : State) (eid : ℕ) (nm : String) (rest : List Param),
      run (n + 1) st (Task.bindFn eid (Param.mk nm none false :: rest) []) =
        run n (envDefine st eid nm Value.vnone false false) (Task.bindFn eid rest [])) ∧
    (∀ (n : ℕ) (st st1 : State) (eid : ℕ) (nm : String) (d : Expr)
       (rest : List Param) (dv : Value),
      run n st (Task.expr d) = (Res.ok (Out.val dv), st1) →
      run (n + 1) st (Task.bindFn eid (Param.mk nm (some d) false :: rest) []) =
        run n (envDefine st1 eid nm dv false false) (Task.bindFn eid rest [])) ∧
    (∀ (n : ℕ) (st st1 : State) (eid : ℕ) (nm : String) (d : Expr)
       (rest : List Param) (dv : Value),
      run n { st with cur := eid } (Task.expr d) = (Res.ok (Out.val dv), st1) →
      run (n + 1) st (Task.bindLam eid (Param.mk nm (some d) false :: rest) []) =
        run n (envDefine { st1 with cur := st.cur } eid nm dv false false)
          (Task.bindLam eid rest [])) ∧
    (run 10 c4State (Task.callFn 0 [])).fst = Res.ok (Out.val (Value.vint 2)) ∧
    (run 10 c4LamState (Task.callLam 0 [])).fst = Res.ok (Out.val (Value.vint 1)) := by
  have ha : ∀ (ps : List Param) (n : ℕ) (st : State) (eid : ℕ)
      (args extra : List Value), noRest ps → ps.length ≤ args.length →
      run n st (Task.bindFn eid ps (args ++ extra)) =
        run n st (Task.bindFn eid ps args) := by
    intro ps
    induction ps with
    | nil =>
        intro n st eid args extra hnr hlen
        cases n with
        | zero => rfl
        | succ n => rfl
    | cons p rest ih =>
        intro n st eid args extra hnr hlen
        cases n with
        | zero => rfl
        | succ n =>
            have hpr : p.rest = false := hnr p (by simp)
            cases args with
            | nil => simp at hlen
            | cons a tl =>
                simp only [List.cons_append, run, hpr]
                simp only [Bool.false_eq_true, if_false]
                exact ih n (envDefine st eid p.name a false false) eid tl extra
                  (fun q hq => hnr q (List.mem_cons_of_mem p hq)) (by simpa using hlen)
  refine ⟨ha, ?_, ?_, ?_, ?_, rfl, rfl⟩
  · intro n st fid args extra fv hfv hnr hlen
    simp only [run, hfv]
    rw [ha fv.params n (newEnv st fv.closure).1 (newEnv st fv.closure).2
      args extra hnr hlen]
  · intro n st eid nm rest
    rfl
  · intro n st st1 eid nm d rest dv hd
    simp only [run, Param.rest, Param.default, Param.name, hd]
    simp
  · intro n st st1 eid nm d rest dv hd
    simp only [run, Param.rest, Param.default, Param.name, hd]
    simp

/-- Claim C4 amended witness: two extra arguments past a two-parameter
list are discarded at both levels; a missing no-default parameter binds
none; a missing parameter's default evaluates in the caller's state
(binding `p = 2` from the call site) where the lambda path evaluates it
in the new call scope (binding `q = 1` from the captured scope); and
the two end-to-end calls return `2` and `1` respectively. -/
theorem c4_parameter_binding_amended_witness :
    run 6 initState
      (Task.bindFn 0 [Param.mk "x" none false, Param.mk "y" none false]
        ([Value.vint 1, Value.vint 2] ++ [Value.vint 3, Value.vint 4])) =
      run 6 initState
        (Task.bindFn 0 [Param.mk "x" none false, Param.mk "y" none false]
          [Value.vint 1, Value.vint 2]) ∧
    run 8 c2FnState (Task.callFn 0 ([Value.vint 1, Value.vint 2] ++ [Value.vint 9])) =
      run 8 c2FnState (Task.callFn 0 [Value.vint 1, Value.vint 2]) ∧
    run 4 initState (Task.bindFn 0 [Param.mk "z" none false] []) =
      run 3 (envDefine initState 0 "z" Value.vnone false false) (Task.bindFn 0 [] []) ∧
    run 3 c4State (Task.bindFn 0 [Param.mk "p" (some (Expr.ident "a")) false] []) =
      run 2 (envDefine c4State 0 "p" (Value.vint 2) false false) (Task.bindFn 0 [] []) ∧
    run 3 c4State (Task.bindLam 0 [Param.mk "q" (some (Expr.ident "a")) false] []) =
      run 2 (envDefine c4State 0 "q" (Value.vint 1) false false) (Task.bindLam 0 [] []) ∧
    (run 10 c4State (Task.callFn 0 [])).fst = Res.ok (Out.val (Value.vint 2)) ∧
    (run 10 c4LamState (Task.callLam 0 [])).fst = Res.ok (Out.val (Value.vint 1)) :=
  ⟨c4_parameter_binding_amended.1 [Param.mk "x" none false, Param.mk "y" none false]
     6 initState 0 [Value.vint 1, Value.vint 2] [Value.vint 3, Value.vint 4]
     (by simp [noRest, Param.rest]) (by simp),
   c4_parameter_binding_amended.2.1 7 c2FnState 0 [Value.vint 1, Value.vint 2]
     [Value.vint 9] _ rfl (by simp [noRest, Param.rest, c2FnState])
     (by simp [c2FnState]),
   c4_parameter_binding_amended.2.2.1 3 initState 0 "z" [],
   c4_parameter_binding_amended.2.2.2.1 2 c4State c4State 0 "p" (Expr.ident "a")
     [] (Value.vint 2) rfl,
   c4_parameter_binding_amended.2.2.2.2.1 2 c4State { c4State with cur := 0 } 0
     "q" (Expr.ident "a") [] (Value.vint 1) rfl,
   c4_parameter_binding_amended.2.2.2.2.2.1,
   c4_parameter_binding_amended.2.2.2.2.2.2⟩

end RiftSpec

namespace RiftSpec

/-- Every value has positive size. -/
theorem value_sizeOf_pos (v : Value) : 1 ≤ sizeOf v := by
  cases v <;> simp_arith

/-- A list of entries is shorter than its size. -/
theorem entries_length_lt_sizeOf (l : List (Value × Value)) :
    l.length < sizeOf l := by
  induction l with
  | nil => simp
  | cons p tl ih =>
      rcases p with ⟨k, w⟩
      have hk := value_sizeOf_pos k
      simp only [List.length_cons, List.cons.sizeOf_spec, Prod.mk.sizeOf_spec]
      omega

/-- Object identity (`videT`) is reflexive given fuel at least the value
size. -/
theorem videT_refl (n : ℕ) :
    (∀ v : Value, sizeOf v ≤ n → videT n (EqTask.v v v) = true) ∧
    (∀ xs : List Value, sizeOf xs ≤ n → videT n (EqTask.l xs xs) = true) ∧
    (∀ es : List (Value × Value), sizeOf es ≤ n →
      videT n (EqTask.es es es) = true) := by
  induction n with
  | zero =>
      refine ⟨?_, ?_, ?_⟩
      · intro v hv
        exact absurd hv (by have := value_sizeOf_pos v; omega)
      · intro xs hxs
        exact absurd hxs (by cases xs <;> simp_arith)
      · intro es hes
        exact absurd hes (by cases es <;> simp_arith)
  | succ n ih =>
      refine ⟨?_, ?_, ?_⟩
      · intro v hv
        cases v <;> simp_all [videT]
        · rename_i xs
          exact ih.2.1 xs (by omega)
        · rename_i es
          exact ih.2.2 es (by omega)
      · intro xs hxs
        cases xs with
        | nil => simp [videT]
        | cons x tl =>
            have hx := value_sizeOf_pos x
            simp only [List.cons.sizeOf_spec] at hxs
            simp only [videT, Bool.and_eq_true]
            have htl : 1 ≤ sizeOf tl := by cases tl <;> simp_arith
            exact ⟨ih.1 x (by omega), ih.2.1 tl (by omega)⟩
      · intro es hes
        cases es with
        | nil => simp [videT]
        | cons p tl =>
            rcases p with ⟨k, w⟩
            have hk := value_sizeOf_pos k
            have hw := value_sizeOf_pos w
            simp only [List.cons.sizeOf_spec, Prod.mk.sizeOf_spec] at hes
            simp only [videT, Bool.and_eq_true]
            have htl : 1 ≤ sizeOf tl := by cases tl <;> simp_arith
            exact ⟨⟨ih.1 k (by omega), ih.1 w (by omega)⟩, ih.2.2 tl (by omega)⟩

end RiftSpec

namespace RiftSpec

/-- Sequence comparison is reflexive: each element hits the
`RichCompareBool` identity fast path. -/
theorem pyEqList_refl : ∀ (xs : List Value) (n : ℕ), sizeOf xs ≤ n →
    pyEqT n (EqTask.l xs xs) = true := by
  intro xs
  induction xs with
  | nil =>
      intro n hn
      cases n with
      | zero => simp at hn
      | succ n => rfl
  | cons x tl ih =>
      intro n hn
      cases n with
      | zero =>
          have := value_sizeOf_pos x
          simp only [List.cons.sizeOf_spec] at hn
          omega
      | succ n =>
          have hx := value_sizeOf_pos x
          have htl : 1 ≤ sizeOf tl := by cases tl <;> simp_arith
          simp only [List.cons.sizeOf_spec] at hn
          simp only [pyEqT, vident, Bool.and_eq_true, Bool.or_eq_true]
          exact ⟨Or.inl ((videT_refl n).1 x (by omega)), ih n (by omega)⟩

/-- Dictionary lookup of a key-value pair succeeds when every earlier
entry's key is neither identical nor equal to it, given enough fuel. -/
theorem pyEqLook_hit : ∀ (pre : List (Value × Value)) (n : ℕ) (k w : Value)
    (rest : List (Value × Value)),
    (∀ p ∈ pre, (∀ m, vident m p.1 k = false) ∧ (∀ m, pyEq m p.1 k = false)) →
    pre.length + sizeOf k + sizeOf w < n →
    pyEqT n (EqTask.look k w (pre ++ (k, w) :: rest)) = true := by
  intro pre
  induction pre with
  | nil =>
      intro n k w rest hmiss hn
      cases n with
      | zero => omega
      | succ m =>
          have hk := (videT_refl m).1 k (by omega)
          have hw := (videT_refl m).1 w (by omega)
          simp only [List.nil_append, pyEqT, vident] at hk hw ⊢
          simp [hk, hw]
  | cons p tl ih =>
      intro n k w rest hmiss hn
      cases n with
      | zero => omega
      | succ m =>
          rcases p with ⟨k2, w2⟩
          have h1 : vident m k2 k = false := (hmiss ⟨k2, w2⟩ (by simp)).1 m
          have h2 : pyEq m k2 k = false := (hmiss ⟨k2, w2⟩ (by simp)).2 m
          simp only [List.cons_append, pyEqT, vident, pyEq] at h1 h2 ⊢
          rw [h1, h2]
          simp only [Bool.or_self, Bool.false_or, if_false]
          exact ih m k w rest (fun q hq => hmiss q (by simp [hq])) (by simp at hn ⊢; omega)

/-- Dictionary comparison with itself succeeds entrywise when keys are
pairwise distinct, given fuel linear in the size. -/
theorem pyEqEntries_refl : ∀ (suf : List (Value × Value)) (n : ℕ)
    (es : List (Value × Value)),
    (∃ pre, es = pre ++ suf) →
    es.Pairwise (fun x y =>
      (∀ m, vident m x.1 y.1 = false) ∧ (∀ m, pyEq m x.1 y.1 = false)) →
    suf.length + 2 * sizeOf es ≤ n →
    pyEqT n (EqTask.es suf es) = true := by
  intro suf
  induction suf with
  | nil =>
      intro n es hsplit hpw hn
      cases n with
      | zero =>
          have := entries_length_lt_sizeOf es
          omega
      | succ m => rfl
  | cons p suf ih =>
      intro n es hsplit hpw hn
      rcases p with ⟨k, w⟩
      cases n with
      | zero =>
          have := entries_length_lt_sizeOf es
          omega
      | succ m =>
          rcases hsplit with ⟨pre, hsp⟩
          have hmem : (k, w) ∈ es := by
            rw [hsp]; exact List.mem_append_right pre (by simp)
          have hszkw : sizeOf (k, w) < sizeOf es := List.sizeOf_lt_of_mem hmem
          have hlen := entries_length_lt_sizeOf es
          have hprelen : pre.length + 1 + suf.length = es.length := by
            rw [hsp]; simp; omega
          have hk := value_sizeOf_pos k
          have hw := value_sizeOf_pos w
          simp only [Prod.mk.sizeOf_spec] at hszkw
          simp only [pyEqT, Bool.and_eq_true]
          constructor
          · rw [hsp]
            refine pyEqLook_hit pre m k w suf ?_ (by omega)
            intro q hq
            have hpw2 := (List.pairwise_append.mp (by rw [hsp] at hpw; exact hpw)).2.2
            exact hpw2 q hq (k, w) (by simp)
          · refine ih m es ⟨pre ++ [(k, w)], by rw [hsp]; simp⟩ hpw (by simp at hn ⊢; omega)

end RiftSpec

namespace RiftSpec

/-- Claim C6 counterexample. The evaluator can produce a float NaN
(`let x = 1e308 * 10 - 1e308 * 10`: the products overflow to infinity
and their difference is NaN), and for that runtime value `x == x`
evaluates to false, not true. -/
theorem c6_structural_equality_counterexample :
    (runProgram 20 c6Prog).fst = Res.ok (Out.val (Value.vbool false)) := rfl

/-- Claim C6 as amended. For every runtime value other than a bare float
NaN (maps assumed to carry pairwise-distinct keys, as every host dict
does), `x == x` evaluates to true; the comparison fuel may be anything
at least three times the value's size — the evaluator always runs `==`
with fuel of the caller's choosing, so this covers every sufficiently
fuelled evaluation. Containers containing NaN still compare equal to
themselves through the elementwise identity fast path; only the bare
NaN of the counterexample fails. -/
theorem c6_structural_equality_amended :
    ∀ (n : ℕ) (v : Value), 3 * sizeOf v ≤ n → mapKeysOK v →
      v ≠ Value.vfloat FloatV.nan → pyEq n v v = true := by
  intro n v hn hkeys hne
  cases n with
  | zero =>
      have := value_sizeOf_pos v
      omega
  | succ m =>
      cases v with
      | vnone => rfl
      | vbool b => cases b <;> rfl
      | vint i => simp [pyEq, pyEqT, asNum, numEq]
      | vfloat f =>
          cases f with
          | finite q => simp [pyEq, pyEqT, asNum, numEq, toF, fEq, qEqB]
          | inf => rfl
          | neginf => rfl
          | nan => exact absurd rfl hne
      | vstr s => simp [pyEq, pyEqT, asNum]
      | vlist xs =>
          simp only [pyEq, pyEqT, asNum, Bool.and_eq_true]
          refine ⟨by simp, pyEqList_refl xs m ?_⟩
          simp only [Value.vlist.sizeOf_spec] at hn
          omega
      | vmap es =>
          simp only [pyEq, pyEqT, asNum, Bool.and_eq_true]
          have hlen := entries_length_lt_sizeOf es
          refine ⟨by simp, pyEqEntries_refl es m es ⟨[], rfl⟩ hkeys ?_⟩
          simp only [Value.vmap.sizeOf_spec] at hn
          omega
      | vrange a b => simp [pyEq, pyEqT, asNum, rangeEqB]
      | vfunc i => simp [pyEq, pyEqT, asNum]
      | vlam i => simp [pyEq, pyEqT, asNum]
      | vclass i => simp [pyEq, pyEqT, asNum]
      | vinst i => simp [pyEq, pyEqT, asNum]

/-- Claim C6 amended witness: a concrete two-entry map compares equal to
itself. -/
theorem c6_structural_equality_amended_witness :
    pyEq 100 c6WVal c6WVal = true := by
  refine c6_structural_equality_amended 100 c6WVal (by decide) ?_ (by simp [c6WVal])
  show List.Pairwise _ _
  refine List.Pairwise.cons ?_ (List.Pairwise.cons (by intro y hy; simp at hy)
    List.Pairwise.nil)
  intro y hy
  simp only [List.mem_singleton] at hy
  subst hy
  exact ⟨fun m => by cases m <;> rfl, fun m => by cases m <;> rfl⟩

end RiftSpec
